import Mathlib

/-!
Verification development for `tfx_bsl/tfxio/tensor_adapter.py`.

The Python module converts Arrow RecordBatches into dense / sparse / ragged
tensor values driven by per-tensor `TensorRepresentation` protos.  This file
gives a shallow embedding of the module's data model and algorithms:

* `ArrowType` / `Schema` model the pyarrow schema tree;
* `enumerateTypesAlongPath` embeds `_EnumerateTypesAlongPath`;
* `AArray` models (null-free) pyarrow arrays with their slice offset;
* the handler structures and `…GetTensor` functions embed the five handler
  classes;
* `buildTypeHandlers` embeds `_BuildTypeHandlers`, and `adapterInit` /
  `toBatchTensors` embed `TensorAdapter.__init__` / `ToBatchTensors`.

Modelling conventions: Python exceptions become `Except PyErr`; Python dicts
become association lists in insertion order; numpy integer arithmetic is
modelled exactly over `Int` (the platform-dependent overflow of numpy's
accumulator in `np.prod` is not modelled); arrays carry no nulls (no claim
exercises null handling, which only the default-filling handler touches).
-/

/-- Python exception classes that the module raises or catches. -/
inductive PyErr where
  | valueError (msg : String)
  | keyError (msg : String)
  | typeError (msg : String)
  | runtimeError (msg : String)
  | indexError (msg : String)
deriving DecidableEq, Repr

/-- `str(e)` for the exception kinds we model: the carried message. -/
def PyErr.message : PyErr → String
  | .valueError m => m
  | .keyError m => m
  | .typeError m => m
  | .runtimeError m => m
  | .indexError m => m

/-- The pyarrow data types the module distinguishes: supported leaf types
(64-bit integer, 64-bit float, string, binary), list-like types, and struct
types with named children. -/
inductive ArrowType where
  | int64
  | float64
  | string
  | binary
  | list (value_type : ArrowType)
  | largeList (value_type : ArrowType)
  | struct (fields : List (String × ArrowType))

/-- `_IsListLike`: `pa.types.is_list(t) or pa.types.is_large_list(t)`. -/
def isListLike : ArrowType → Bool
  | .list _ => true
  | .largeList _ => true
  | _ => false

/-- `pa.types.is_struct`. -/
def isStruct : ArrowType → Bool
  | .struct _ => true
  | _ => false

/-- `_IsBinaryLike`: binary or string (large variants not modelled). -/
def isBinaryLike : ArrowType → Bool
  | .string => true
  | .binary => true
  | _ => false

/-- `pa.types.is_integer`. -/
def isIntegerType : ArrowType → Bool
  | .int64 => true
  | _ => false

/-- `pa.types.is_floating`. -/
def isFloatingType : ArrowType → Bool
  | .float64 => true
  | _ => false

/-- `_IsSupportedArrowValueType`: integer, floating or binary-like. -/
def isSupportedArrowValueType (t : ArrowType) : Bool :=
  isIntegerType t || isFloatingType t || isBinaryLike t

/-- The tensorflow dtypes produced by `_ArrowTypeToTfDtype` plus `tf.int32`
(used only as a ragged row-partition dtype). -/
inductive TfDType where
  | tfInt32
  | tfInt64
  | tfFloat64
  | tfString
deriving DecidableEq, Repr

/-- `_ArrowTypeToTfDtype`: binary-like maps to `tf.string`; other leaves map
through `to_pandas_dtype`; nested types make `tf.dtypes.as_dtype` raise. -/
def arrowTypeToTfDtype : ArrowType → Except PyErr TfDType
  | .string => .ok .tfString
  | .binary => .ok .tfString
  | .int64 => .ok .tfInt64
  | .float64 => .ok .tfFloat64
  | _ => .error (.typeError "Cannot convert a nested arrow type to a tf dtype")

/-- `_GetConvertToBinaryFn` returns a function exactly for string types; we
record only whether one is returned, since viewing a string array as binary
does not change the logical values being moved. -/
def convertToBinaryNeeded : ArrowType → Bool
  | .string => true
  | _ => false

/-- An Arrow schema: named top-level fields in declaration order. -/
abbrev Schema := List (String × ArrowType)

/-- First-match lookup in a named-field list (`pa.StructType.__getitem__`,
`pa.Schema.field` both resolve names this way). -/
def lookupByName {β : Type} : List (String × β) → String → Option β
  | [], _ => none
  | (n, v) :: rest, s => if n = s then some v else lookupByName rest s

theorem sizeOf_lookupByName {β : Type} [SizeOf β] :
    ∀ (fs : List (String × β)) (s : String) (v : β),
      lookupByName fs s = some v → sizeOf v < sizeOf fs := by
  intro fs
  induction fs with
  | nil => intro s v h; simp [lookupByName] at h
  | cons hd tl ih =>
    intro s v h
    simp only [lookupByName] at h
    split at h
    · cases h
      cases hd with
      | mk n t => simp; omega
    · have := ih s v h
      cases hd with
      | mk n t => simp; omega

/-- `pa.Schema.get_field_index`: index of the first field with the name, or
`-1` when absent. -/
def getFieldIndex (schema : Schema) (name : String) : Int :=
  go schema 0
where
  go : List (String × ArrowType) → Int → Int
    | [], _ => -1
    | (n, _) :: rest, i => if n = name then i else go rest (i + 1)

/-- `pa.Schema.field(name)`: the field's type, or a `KeyError` when the name
is absent. -/
def schemaField (schema : Schema) (name : String) : Except PyErr ArrowType :=
  match lookupByName schema name with
  | some t => .ok t
  | none => .error (.keyError s!"Column {name} does not exist in schema")

/-- The loop body of `_EnumerateTypesAlongPath` after the initial yield:
walks the remaining path through struct fields, descends through list-like
value types, and yields the leaf a second time (as the source generator
does).  Errors are the `ValueError`s the generator raises. -/
def enumFromType : ArrowType → List String → Except PyErr (List ArrowType)
  | .struct _, [] => .ok []
  | .struct fields, step :: rest =>
    match h : lookupByName fields step with
    | none =>
      .error (.valueError
        s!"The field: {step} could not be found in the current Struct")
    | some t => (enumFromType t rest).map (fun tail => t :: tail)
  | .list t, p => (enumFromType t p).map (fun tail => t :: tail)
  | .largeList t, p => (enumFromType t p).map (fun tail => t :: tail)
  | t, p =>
    if p.isEmpty then .ok [t]
    else
      .error (.valueError
        "The arrow_schema fields are exhausted, but there are remaining fields in the column_path")
termination_by t _ => sizeOf t
decreasing_by
  · have := sizeOf_lookupByName fields step t h
    simp; omega
  · simp
  · simp

/-- `_EnumerateTypesAlongPath`: resolves the first step against the schema
(`KeyError` when absent), yields that type, then runs the loop.  The result
is the full list of yielded types; a raise during iteration becomes an
`Except.error` (every caller in the module drains the generator). -/
def enumerateTypesAlongPath (schema : Schema) (column_path : List String) :
    Except PyErr (List ArrowType) :=
  match column_path with
  | [] => .error (.indexError "tuple index out of range")
  | field_name :: rest => do
    let t ← schemaField schema field_name
    let tail ← enumFromType t rest
    pure (t :: tail)

/-- `_GetNestDepthAndValueType`: depth is the number of list-like types
yielded along the path; the value type is the last yielded type. -/
def getNestDepthAndValueType (schema : Schema) (column_path : List String) :
    Except PyErr (Nat × ArrowType) :=
  match column_path with
  | [] => .error (.indexError "tuple index out of range")
  | field_name :: _ => do
    let t0 ← schemaField schema field_name
    let types ← enumerateTypesAlongPath schema column_path
    pure (types.countP (fun t => isListLike t), types.getLastD t0)

/-! ## TensorRepresentation protos -/

/-- `TensorRepresentation.DefaultValue`: a oneof of the possible default
value kinds.  The float payload is carried as an opaque `Int` marker; the
module only checks its kind and, for integers, its range. -/
inductive DefaultValue where
  | int_value (v : Int)
  | uint_value (v : Int)
  | float_value (payload : Int)
  | bytes_value (v : String)
deriving DecidableEq, Repr

/-- The `dense_tensor` representation: a column name, declared dims, and an
optional default value (`HasField("default_value")` is `Option.isSome`). -/
structure DenseTensorRep where
  column_name : String
  shape : List Int
  default_value : Option DefaultValue
deriving DecidableEq, Repr

/-- The `varlen_sparse_tensor` representation. -/
structure VarLenSparseTensorRep where
  column_name : String
deriving DecidableEq, Repr

/-- The `sparse_tensor` representation. -/
structure SparseTensorRep where
  dense_shape : List Int
  index_column_names : List String
  value_column_name : String
deriving DecidableEq, Repr

/-- `TensorRepresentation.RowPartitionDType`. -/
inductive RowPartitionDType where
  | UNSPECIFIED
  | INT64
  | INT32
deriving DecidableEq, Repr

/-- The `ragged_tensor` representation. -/
structure RaggedTensorRep where
  feature_path : List String
  row_partition_dtype : RowPartitionDType
deriving DecidableEq, Repr

/-- `TensorRepresentation`: the `kind` oneof.  `kind_unset` models a proto
whose oneof is not set, for which `WhichOneof("kind")` returns `None`. -/
inductive TensorRepresentation where
  | dense_tensor (r : DenseTensorRep)
  | varlen_sparse_tensor (r : VarLenSparseTensorRep)
  | sparse_tensor (r : SparseTensorRep)
  | ragged_tensor (r : RaggedTensorRep)
  | kind_unset
deriving DecidableEq, Repr

/-- A short rendering of a representation, standing in for Python's `{}`
formatting of the proto in error messages. -/
def TensorRepresentation.describe : TensorRepresentation → String
  | .dense_tensor r => s!"dense_tensor(column_name={r.column_name})"
  | .varlen_sparse_tensor r => s!"varlen_sparse_tensor(column_name={r.column_name})"
  | .sparse_tensor r => s!"sparse_tensor(value_column_name={r.value_column_name})"
  | .ragged_tensor r => s!"ragged_tensor(feature_path={r.feature_path})"
  | .kind_unset => "(no kind set)"

/-! ## Feasibility predicates (the `CanHandle` static methods)

Each returns `Except PyErr Bool` because `_GetNestDepthAndValueType` can
raise (a `KeyError` from `pa.Schema.field` propagates out of `CanHandle`). -/

/-- `_BaseDenseTensorHandler.BaseCanHandle`: depth exactly 1 and a supported
leaf value type. -/
def baseDenseCanHandle (schema : Schema) (rep : DenseTensorRep) :
    Except PyErr Bool := do
  let (depth, value_type) ← getNestDepthAndValueType schema [rep.column_name]
  pure (depth == 1 && isSupportedArrowValueType value_type)

/-- `_DenseTensorHandler.CanHandle`: base feasibility and no default value. -/
def denseCanHandle (schema : Schema) (rep : DenseTensorRep) :
    Except PyErr Bool := do
  let base ← baseDenseCanHandle schema rep
  pure (base && !rep.default_value.isSome)

/-- `_DefaultFillingDenseTensorHandler.CanHandle`: base feasibility and a
default value present. -/
def defaultFillingDenseCanHandle (schema : Schema) (rep : DenseTensorRep) :
    Except PyErr Bool := do
  let base ← baseDenseCanHandle schema rep
  pure (base && rep.default_value.isSome)

/-- `_VarLenSparseTensorHandler.CanHandle`. -/
def varLenSparseCanHandle (schema : Schema) (rep : VarLenSparseTensorRep) :
    Except PyErr Bool := do
  let (depth, value_type) ← getNestDepthAndValueType schema [rep.column_name]
  pure (depth == 1 && isSupportedArrowValueType value_type)

/-- The per-index-column loop of `_SparseTensorHandler.CanHandle`: every
index column must have depth 1 and an integer value type. -/
def sparseIndexColumnsOk (schema : Schema) : List String → Except PyErr Bool
  | [] => .ok true
  | c :: rest => do
    let (depth, value_type) ← getNestDepthAndValueType schema [c]
    if depth != 1 || !isIntegerType value_type then
      pure false
    else
      sparseIndexColumnsOk schema rest

/-- `_SparseTensorHandler.CanHandle`. -/
def sparseCanHandle (schema : Schema) (rep : SparseTensorRep) :
    Except PyErr Bool := do
  if rep.dense_shape.length ≠ rep.index_column_names.length then
    pure false
  else if rep.dense_shape.any (fun d => d ≤ 0) then
    pure false
  else do
    let idxOk ← sparseIndexColumnsOk schema rep.index_column_names
    if !idxOk then
      pure false
    else do
      let (depth, value_type) ← getNestDepthAndValueType schema [rep.value_column_name]
      pure (depth == 1 && isSupportedArrowValueType value_type)

/-- `_RaggedTensorHandler.CanHandle`: enumerate the types along the feature
path; infeasible when the last visited type is a struct (non-leaf path) or no
list-like type occurs; a `ValueError` during enumeration (missing struct
field, left-over path steps) is caught and means infeasible.  Other
exceptions (the `KeyError` for a missing top-level column, the `IndexError`
for an empty path) propagate, as the `except ValueError` clause does not
catch them. -/
def raggedCanHandle (schema : Schema) (rep : RaggedTensorRep) :
    Except PyErr Bool :=
  match enumerateTypesAlongPath schema rep.feature_path with
  | .error (.valueError _) => .ok false
  | .error e => .error e
  | .ok types =>
    let contains_list := types.any (fun t => isListLike t)
    match types.getLast? with
    | some t => if isStruct t then .ok false else .ok contains_list
    | none => .ok contains_list

/-! ## Arrow arrays

`AArray` models a (null-free) pyarrow array: a primitive leaf array, a
list-like array (offsets buffer plus child values array), or a struct array
with named child arrays.  Every array carries its slice offset (`.offset` in
pyarrow); the batches the module builds tensors from normally carry offset 0
everywhere, and the ragged handler explicitly rejects anything else. -/

inductive AArray (α : Type) where
  | prim (off : Nat) (values : List α)
  | listA (off : Nat) (offsets : List Int) (child : AArray α)
  | structA (off : Nat) (fields : List (String × AArray α))

namespace AArray

/-- The slice offset of an array (`array.offset`). -/
def off {α : Type} : AArray α → Nat
  | .prim o _ => o
  | .listA o _ _ => o
  | .structA o _ => o

/-- Slicing an array by `k` positions: pyarrow implements zero-copy slices
by bumping the stored offset. -/
def addOffset {α : Type} : AArray α → Nat → AArray α
  | .prim o vs, k => .prim (o + k) vs
  | .listA o os c, k => .listA (o + k) os c
  | .structA o fs, k => .structA (o + k) fs

/-! `msize` is a structural size that ignores the offsets, used as the
termination measure for the traversals (slicing preserves it). -/

mutual
def msize {α : Type} : AArray α → Nat
  | .prim _ _ => 1
  | .listA _ _ c => msize c + 1
  | .structA _ fs => msizeFields fs + 1
def msizeFields {α : Type} : List (String × AArray α) → Nat
  | [] => 0
  | (_, a) :: rest => msize a + msizeFields rest + 1
end

theorem msize_addOffset {α : Type} (a : AArray α) (k : Nat) :
    msize (a.addOffset k) = msize a := by
  cases a <;> simp [addOffset, msize]

theorem msize_lookupByName {α : Type} :
    ∀ (fs : List (String × AArray α)) (s : String) (c : AArray α),
      lookupByName fs s = some c → msize c < msizeFields fs := by
  intro fs
  induction fs with
  | nil => intro s c h; simp [lookupByName] at h
  | cons hd tl ih =>
    intro s c h
    cases hd with
    | mk n a =>
      simp only [lookupByName] at h
      split at h
      · cases h; simp [msizeFields]; omega
      · have := ih s c h
        simp [msizeFields]; omega

/-- `pa.ListArray.flatten()`: the child values array, sliced from the first
list offset (zero-copy, so a non-zero first offset surfaces as a slice
offset on the result; with offset-0 well-formed arrays it is the child
array itself). On non-list arrays flatten is not used by the module. -/
def flatten {α : Type} : AArray α → AArray α
  | .listA _ offsets child => child.addOffset (offsets.headD 0).toNat
  | a => a

/-- `len(array)` for the array forms the module measures: for a list array
the number of rows (one less than the offsets buffer length); struct-array
length is unused by the module. -/
def len {α : Type} : AArray α → Nat
  | .prim o vs => vs.length - o
  | .listA _ offsets _ => offsets.length - 1
  | .structA _ _ => 0

/-- `np.asarray` on a primitive array: its values past the slice offset.
The module only materializes primitive arrays this way. -/
def asNp {α : Type} : AArray α → List α
  | .prim o vs => vs.drop o
  | _ => []

end AArray

/-- The offsets buffer of the list array holding the given rows:
`[0, |r0|, |r0|+|r1|, …]`. -/
def cumOffsets {α : Type} (rows : List (List α)) : List Int :=
  0 :: go 0 rows
where
  go : Int → List (List α) → List Int
    | _, [] => []
    | acc, r :: rest => (acc + r.length) :: go (acc + r.length) rest

/-- The canonical offset-0 list array holding the given rows (what a
freshly built, unsliced, null-free `pa.ListArray` looks like). -/
def listOfRows {α : Type} (rows : List (List α)) : AArray α :=
  .listA 0 (cumOffsets rows) (.prim 0 rows.flatten)

/-- A RecordBatch: its schema, one column array per schema field, and its
row count. -/
structure RecordBatch (α : Type) where
  schema : List (String × ArrowType)
  columns : List (AArray α)
  num_rows : Nat

/-- `record_batch.column(i)`: column by position (`IndexError` when out of
range; the stored indices come from `get_field_index`, which yields `-1`
for a missing column). -/
def columnAt {α : Type} (b : RecordBatch α) (i : Int) : Except PyErr (AArray α) :=
  if h : 0 ≤ i ∧ i.toNat < b.columns.length then
    .ok (b.columns.get ⟨i.toNat, h.2⟩)
  else
    .error (.indexError "column index out of range")

/-! ## Handler state

Each handler class precomputes static fields at construction; the
structures below hold exactly those fields.  The value type of the
embedded batches is fixed to `Int`: the handlers only move leaf values
around, so an opaque integer payload models every supported leaf kind,
and the `_convert_to_binary_fn` view change (string to binary) does not
alter the payloads. -/

structure DenseHandlerData where
  column_index : Int
  dtype : TfDType
  unbatched_shape : List Int
  unbatched_flat_len : Int
  convert_binary : Bool
deriving DecidableEq, Repr

structure VarLenHandlerData where
  column_index : Int
  dtype : TfDType
  convert_binary : Bool
deriving DecidableEq, Repr

structure SparseHandlerData where
  index_column_indices : List Int
  value_column_index : Int
  shape : List Int
  dtype : TfDType
  coo_size : Nat
  convert_binary : Bool
deriving DecidableEq, Repr

structure RaggedHandlerData where
  column_index : Int
  col_path : List String
  ragged_rank : Nat
  dtype : TfDType
  row_partition_dtype : RowPartitionDType
  convert_binary : Bool
deriving DecidableEq, Repr

/-- A constructed type handler (the default-filling dense handler carries
its materialized fill: the fill length and the validated default value). -/
inductive Handler where
  | dense (d : DenseHandlerData)
  | defaultFillingDense (d : DenseHandlerData) (fill_size : Nat) (fill_value : DefaultValue)
  | varlenSparse (v : VarLenHandlerData)
  | sparse (s : SparseHandlerData)
  | ragged (r : RaggedHandlerData)
deriving DecidableEq, Repr

/-- `tf.TypeSpec`s the handlers derive (`None` dims are wildcards). -/
inductive TypeSpec where
  | tensorSpec (shape : List (Option Int)) (dtype : TfDType)
  | sparseTensorSpec (shape : List (Option Int)) (dtype : TfDType)
  | raggedTensorSpec (shape : List (Option Int)) (dtype : TfDType)
      (ragged_rank : Nat) (row_splits_dtype : TfDType)
deriving DecidableEq, Repr

/-- The ragged row-splits dtype: `tf.int32` exactly when the representation
declares `INT32`, else `tf.int64`. -/
def rowSplitsDtype : RowPartitionDType → TfDType
  | .INT32 => .tfInt32
  | _ => .tfInt64

/-- The `type_spec` property of each handler class. -/
def Handler.typeSpec : Handler → TypeSpec
  | .dense d => .tensorSpec (none :: d.unbatched_shape.map (fun i => some i)) d.dtype
  | .defaultFillingDense d _ _ =>
      .tensorSpec (none :: d.unbatched_shape.map (fun i => some i)) d.dtype
  | .varlenSparse v => .sparseTensorSpec [none, none] v.dtype
  | .sparse s => .sparseTensorSpec (none :: s.shape.map (fun i => some i)) s.dtype
  | .ragged r =>
      .raggedTensorSpec (List.replicate (r.ragged_rank + 1) none) r.dtype
        r.ragged_rank (rowSplitsDtype r.row_partition_dtype)

/-! ## Handler construction -/

/-- `_BaseDenseTensorHandler.__init__`: precomputes the column position,
dtype, unbatched shape and per-row flat length (`np.prod` of the declared
dims, with `initial=1`, modelled exactly over `Int`). -/
def denseHandlerDataInit (schema : Schema) (rep : DenseTensorRep) :
    Except PyErr DenseHandlerData := do
  let column_index := getFieldIndex schema rep.column_name
  let (_, value_type) ← getNestDepthAndValueType schema [rep.column_name]
  let dtype ← arrowTypeToTfDtype value_type
  let unbatched_shape := rep.shape
  pure { column_index := column_index, dtype := dtype,
         unbatched_shape := unbatched_shape,
         unbatched_flat_len := unbatched_shape.prod,
         convert_binary := convertToBinaryNeeded value_type }

/-- `np.iinfo` bounds of the pandas dtype of an integer arrow type. -/
def iinfoRange : ArrowType → Int × Int
  | .int64 => (-(2 ^ 63), 2 ^ 63 - 1)
  | _ => (0, 0)

/-- `_GetAllowedDefaultValue`: the default value's kind must match the leaf
type's category, and integer defaults must be within the integer type's
range. -/
def getAllowedDefaultValue (value_type : ArrowType) (dv : DefaultValue) :
    Except PyErr DefaultValue :=
  match dv with
  | .int_value v | .uint_value v =>
    if isIntegerType value_type then
      let r := iinfoRange value_type
      if v ≤ r.2 ∧ r.1 ≤ v then .ok dv
      else .error (.valueError
        s!"Integer default value out of range: {v} is set for a column")
    else .error (.valueError "Incompatible default value: kind is set for an incompatible column")
  | .float_value _ =>
    if isFloatingType value_type then .ok dv
    else .error (.valueError "Incompatible default value: kind is set for an incompatible column")
  | .bytes_value _ =>
    if isBinaryLike value_type then .ok dv
    else .error (.valueError "Incompatible default value: kind is set for an incompatible column")

/-- `_GetDefaultFill`: an array of `prod(unbatched_shape)` copies of the
validated default value, modelled as (length, value). -/
def getDefaultFill (unbatched_shape : List Int) (value_type : ArrowType)
    (dv : DefaultValue) : Except PyErr (Nat × DefaultValue) := do
  let v ← getAllowedDefaultValue value_type dv
  pure (unbatched_shape.prod.toNat, v)

/-- `_DefaultFillingDenseTensorHandler.__init__`. -/
def defaultFillingDenseInit (schema : Schema) (rep : DenseTensorRep) :
    Except PyErr Handler := do
  let d ← denseHandlerDataInit schema rep
  let (_, value_type) ← getNestDepthAndValueType schema [rep.column_name]
  match rep.default_value with
  | some dv => do
    let fill ← getDefaultFill d.unbatched_shape value_type dv
    pure (.defaultFillingDense d fill.1 fill.2)
  | none =>
    -- an unset oneof makes `WhichOneof` return `None`, hitting the
    -- incompatible-kind raise of `_GetAllowedDefaultValue`
    .error (.valueError "Incompatible default value: kind is set for an incompatible column")

/-- `_VarLenSparseTensorHandler.__init__`. -/
def varLenSparseInit (schema : Schema) (rep : VarLenSparseTensorRep) :
    Except PyErr Handler := do
  let column_index := getFieldIndex schema rep.column_name
  let (_, value_type) ← getNestDepthAndValueType schema [rep.column_name]
  let dtype ← arrowTypeToTfDtype value_type
  pure (.varlenSparse ⟨column_index, dtype, convertToBinaryNeeded value_type⟩)

/-- `_SparseTensorHandler.__init__`: index-column positions in declared
order, value-column position, declared dense shape, and the coordinate
width `len(dense_shape) + 1`. -/
def sparseInit (schema : Schema) (rep : SparseTensorRep) :
    Except PyErr Handler := do
  let index_column_indices := rep.index_column_names.map (getFieldIndex schema)
  let value_column_index := getFieldIndex schema rep.value_column_name
  let shape := rep.dense_shape
  let (_, value_type) ← getNestDepthAndValueType schema [rep.value_column_name]
  let dtype ← arrowTypeToTfDtype value_type
  pure (.sparse ⟨index_column_indices, value_column_index, shape, dtype,
                 shape.length + 1, convertToBinaryNeeded value_type⟩)

/-- `_RaggedTensorHandler.__init__`. -/
def raggedInit (schema : Schema) (rep : RaggedTensorRep) :
    Except PyErr Handler := do
  let first ← match rep.feature_path with
    | [] => .error (.indexError "tuple index out of range")
    | s :: _ => pure s
  let column_index := getFieldIndex schema first
  let (ragged_rank, value_type) ← getNestDepthAndValueType schema rep.feature_path
  let dtype ← arrowTypeToTfDtype value_type
  pure (.ragged ⟨column_index, rep.feature_path, ragged_rank, dtype,
                 rep.row_partition_dtype, convertToBinaryNeeded value_type⟩)

/-! ## Conversion: produced values -/

/-- A ragged value: flat leaf values wrapped by row-partition levels, built
outermost-last by `tf.RaggedTensor.from_row_splits` folding. -/
inductive RaggedValue (α : Type) where
  | leafV (values : List α)
  | partitioned (row_splits : List Int) (child : RaggedValue α)
deriving DecidableEq, Repr

/-- The value part of what a handler produces: a dense array (shape plus
row-major flat buffer), a sparse COO triple, or a ragged value. -/
inductive TValue (α : Type) where
  | denseT (shape : List Int) (values : List α)
  | sparseT (indices : List (List Int)) (values : List α) (dense_shape : List Int)
  | raggedT (r : RaggedValue α)
deriving DecidableEq, Repr

/-- What `GetTensor` hands back: the value, tagged with whether the eager
(`tf.convert_to_tensor` / `tf.RaggedTensor`) or the non-eager
(ndarray / `…Value`) wrapper was chosen. -/
structure Produced (α : Type) where
  eager : Bool
  value : TValue α
deriving DecidableEq, Repr

/-! ## Dense conversion -/

/-- The size-mismatch message of `_BaseDenseTensorHandler._ListArrayToTensor`,
naming the expected and actual element counts. -/
def denseSizeMismatchMsg (expected_num_elements : Int) (got : Nat) : String :=
  s!"Unable to convert a ListArray to a tensor: size mismatch. Expected {expected_num_elements} elements but got {got}."

/-- `_BaseDenseTensorHandler._ListArrayToTensor`: flatten the list column,
require `len(values) == batch_size * unbatched_flat_len`, and reshape the
flat buffer to `[batch_size, *unbatched_shape]` (row-major; `reshape` is
modelled as attaching the shape, whose element-count precondition is the
verified equality whenever the declared dims are nonnegative — the spec's
data model declares them positive). -/
def listArrayToTensor (d : DenseHandlerData) (list_array : AArray Int)
    (produce_eager_tensors : Bool) : Except PyErr (Produced Int) :=
  let values := list_array.flatten
  let batch_size := list_array.len
  let expected_num_elements : Int := (batch_size : Int) * d.unbatched_flat_len
  if (values.len : Int) ≠ expected_num_elements then
    .error (.valueError (denseSizeMismatchMsg expected_num_elements values.len))
  else
    .ok ⟨produce_eager_tensors,
         .denseT ((batch_size : Int) :: d.unbatched_shape) values.asNp⟩

/-- `_DenseTensorHandler.GetTensor`. -/
def denseGetTensor (d : DenseHandlerData) (b : RecordBatch Int)
    (produce_eager_tensors : Bool) : Except PyErr (Produced Int) := do
  let column ← columnAt b d.column_index
  listArrayToTensor d column produce_eager_tensors

/-- `_DefaultFillingDenseTensorHandler.GetTensor`.  `array_util.FillNullLists`
is repository code outside `src/`; modelled from the spec: it replaces
null (absent) list rows by the fill array, and on the null-free arrays of
this model it is the identity. -/
def defaultFillingDenseGetTensor (d : DenseHandlerData) (b : RecordBatch Int)
    (produce_eager_tensors : Bool) : Except PyErr (Produced Int) := do
  let column ← columnAt b d.column_index
  listArrayToTensor d column produce_eager_tensors

/-! ## Varlen-sparse conversion -/

/-- Modelled from the spec: `array_util.CooFromListArray` (repository code
outside `src/`) builds the coordinate pairs (row index, position within
row) of every value of the list array, and the dense shape
`[rowCount, maxRowLength]`. -/
def cooFromListArray (a : AArray Int) : List (List Int) × List Int :=
  match a with
  | .listA _ offsets _ =>
    let n := offsets.length - 1
    let rowLen := fun i => ((offsets.getD (i + 1) 0) - (offsets.getD i 0)).toNat
    let coo := (List.range n).flatMap
      (fun i => (List.range (rowLen i)).map (fun j => [(i : Int), (j : Int)]))
    let maxLen := ((List.range n).map rowLen).foldr max 0
    (coo, [(n : Int), (maxLen : Int)])
  | _ => ([], [0, 0])

/-- `_VarLenSparseTensorHandler.GetTensor`. -/
def varLenGetTensor (v : VarLenHandlerData) (b : RecordBatch Int)
    (produce_eager_tensors : Bool) : Except PyErr (Produced Int) := do
  let array ← columnAt b v.column_index
  let coo := cooFromListArray array
  let values_np := array.flatten.asNp
  pure ⟨produce_eager_tensors, .sparseT coo.1 values_np coo.2⟩

/-! ## Sparse conversion -/

/-- The per-row lengths encoded by a list array's offsets buffer: the
successive differences. -/
def offsetDiffs (offsets : List Int) : List Nat :=
  (offsets.zip offsets.tail).map (fun p => (p.2 - p.1).toNat)

/-- `len` copies of each row index, rows taken in order starting at `i`. -/
def parentIndicesFromDiffs : Nat → List Nat → List Int
  | _, [] => []
  | i, len :: rest => List.replicate len (i : Int) ++ parentIndicesFromDiffs (i + 1) rest

/-- Modelled from the spec: `array_util.GetFlattenedArrayParentIndices`
(repository code outside `src/`) computes, for each value of the flattened
list array, the index of the row owning it (read off the offsets buffer). -/
def getFlattenedArrayParentIndices (a : AArray Int) : List Int :=
  match a with
  | .listA _ offsets _ => parentIndicesFromDiffs 0 (offsetDiffs offsets)
  | _ => []

/-- `np.stack(arrays, axis=1)`: row `j` of the result holds the `j`-th entry
of each stacked vector. -/
def stackColumns (arrays : List (List Int)) (n : Nat) : List (List Int) :=
  (List.range n).map (fun j => arrays.map (fun arr => arr.getD j 0))

/-- The stacking-failure message of `_SparseTensorHandler.GetTensor`, naming
the number of values and the length of every stacked vector. -/
def sparseStackErrMsg (num_values : Nat) (sizes : List Nat) : String :=
  s!"Error constructing the COO for SparseTensor. number of values: {num_values}; size of each index array: {sizes}; original error: all input arrays must have the same shape."

/-- `_SparseTensorHandler.GetTensor`: parent indices of the value column
become coordinate column 0, the flattened index columns become columns
1..N; `np.stack(…, axis=1, out=coo)` succeeds exactly when all stacked
vectors share the value count and the vector count matches `coo_size`
(the `out` buffer is `(len(values), coo_size)`); a `ValueError` from the
stack is re-raised with the observed lengths. -/
def sparseGetTensor (s : SparseHandlerData) (b : RecordBatch Int)
    (produce_eager_tensors : Bool) : Except PyErr (Produced Int) := do
  let values_array ← columnAt b s.value_column_index
  let values_parent_indices := getFlattenedArrayParentIndices values_array
  let flat_index_columns ← s.index_column_indices.mapM
    (fun i => do
      let col ← columnAt b i
      pure col.flatten.asNp)
  let indices_arrays := values_parent_indices :: flat_index_columns
  let values_np := values_array.flatten.asNp
  if indices_arrays.all (fun arr => arr.length = values_np.length) ∧
      indices_arrays.length = s.coo_size then
    pure ⟨produce_eager_tensors,
          .sparseT (stackColumns indices_arrays values_np.length) values_np
            ((b.num_rows : Int) :: s.shape)⟩
  else
    .error (.valueError
      (sparseStackErrMsg values_np.length (indices_arrays.map (fun arr => arr.length))))

/-! ## Ragged conversion -/

/-- Two's-complement wraparound of `np.asarray(…, dtype=intN)`. -/
def intCastWidth (width : Nat) (n : Int) : Int :=
  let m := n % ((2 : Int) ^ width)
  if m < (2 : Int) ^ (width - 1) then m else m - (2 : Int) ^ width

/-- The numpy dtype width chosen for the ragged row partitions. -/
def offsetsDtypeWidth : RowPartitionDType → Nat
  | .INT32 => 32
  | .INT64 => 64
  | .UNSPECIFIED => 64

def raggedSliceErrMsg : String :=
  "This record batch is sliced. We currently do not handle converting slices to RaggedTensors."

/-- The `while True` loop of `_RaggedTensorHandler.GetTensor`: reject any
array carrying a slice offset; descend into the named child of a struct
array (consuming one path step); record the offsets of a list-like array
(cast to the configured width) as one row-partition level and descend into
its flattened values; stop at a primitive leaf. -/
def raggedWalk (width : Nat) :
    AArray Int → List String → List (List Int) →
    Except PyErr (List (List Int) × List Int)
  | column, column_path, row_splits =>
    if column.off ≠ 0 then
      .error (.valueError raggedSliceErrMsg)
    else
      match column with
      | .structA _ fields =>
        match column_path with
        | [] => .error (.indexError "tuple index out of range")
        | step :: rest =>
          match h : lookupByName fields step with
          | none => .error (.keyError s!"Field {step} does not exist in struct array")
          | some child => raggedWalk width child rest row_splits
      | .listA o offsets child =>
        raggedWalk width (AArray.listA o offsets child).flatten column_path
          (row_splits ++ [offsets.map (intCastWidth width)])
      | .prim o vs => .ok (row_splits, vs.drop o)
termination_by column _ _ => column.msize
decreasing_by
  · have := AArray.msize_lookupByName fields step child h
    simp [AArray.msize]; omega
  · simp [AArray.flatten, AArray.msize_addOffset, AArray.msize]

/-- The assembly after the loop: `result = values`, then
`for row_split in reversed(row_splits): result = factory(result, row_split)`. -/
def raggedFromRowSplits (row_splits : List (List Int)) (values : List Int) :
    RaggedValue Int :=
  row_splits.reverse.foldl (fun result rs => .partitioned rs result) (.leafV values)

/-- `_RaggedTensorHandler.GetTensor`: start at the path's column with the
remaining path (`self._path.suffix(1)`), run the walk, and fold the
recorded row partitions around the flat values. -/
def raggedGetTensor (r : RaggedHandlerData) (b : RecordBatch Int)
    (produce_eager_tensors : Bool) : Except PyErr (Produced Int) := do
  let column_path := r.col_path.drop 1
  let column ← columnAt b r.column_index
  let walked ← raggedWalk (offsetsDtypeWidth r.row_partition_dtype) column column_path []
  pure ⟨produce_eager_tensors, .raggedT (raggedFromRowSplits walked.1 walked.2)⟩

/-- The arrays the ragged loop visits, in visiting order: each iteration
looks at one array (offset check first) and descends until it errors out
or reaches the leaf. -/
def raggedVisited : AArray Int → List String → List (AArray Int)
  | column, column_path =>
    column ::
      (if column.off ≠ 0 then []
       else
         match column with
         | .structA _ fields =>
           match column_path with
           | [] => []
           | step :: rest =>
             match h : lookupByName fields step with
             | none => []
             | some child => raggedVisited child rest
         | .listA o offsets child =>
           raggedVisited (AArray.listA o offsets child).flatten column_path
         | .prim _ _ => [])
termination_by column _ => column.msize
decreasing_by
  · have := AArray.msize_lookupByName fields step child h
    simp [AArray.msize]; omega
  · simp [AArray.flatten, AArray.msize_addOffset, AArray.msize]

/-- The claim's reading of the ragged conversion, written as direct
structural recursion: a struct array contributes nothing and consumes a
path step; a list-like array wraps the converted flattened child in one
row-partition level; a leaf yields the flat values. -/
def raggedDirect (width : Nat) :
    AArray Int → List String → Except PyErr (RaggedValue Int)
  | column, column_path =>
    if column.off ≠ 0 then
      .error (.valueError raggedSliceErrMsg)
    else
      match column with
      | .structA _ fields =>
        match column_path with
        | [] => .error (.indexError "tuple index out of range")
        | step :: rest =>
          match h : lookupByName fields step with
          | none => .error (.keyError s!"Field {step} does not exist in struct array")
          | some child => raggedDirect width child rest
      | .listA o offsets child =>
        (raggedDirect width (AArray.listA o offsets child).flatten column_path).map
          (fun inner => .partitioned (offsets.map (intCastWidth width)) inner)
      | .prim o vs => .ok (.leafV (vs.drop o))
termination_by column _ => column.msize
decreasing_by
  · have := AArray.msize_lookupByName fields step child h
    simp [AArray.msize]; omega
  · simp [AArray.flatten, AArray.msize_addOffset, AArray.msize]

/-! ## Schema equality (`pa.Schema.equals`) -/

mutual
def ArrowType.beq : ArrowType → ArrowType → Bool
  | .int64, .int64 => true
  | .float64, .float64 => true
  | .string, .string => true
  | .binary, .binary => true
  | .list a, .list b => ArrowType.beq a b
  | .largeList a, .largeList b => ArrowType.beq a b
  | .struct fs, .struct gs => beqFieldList fs gs
  | _, _ => false
def beqFieldList : List (String × ArrowType) → List (String × ArrowType) → Bool
  | [], [] => true
  | (n, t) :: fs, (m, u) :: gs => n == m && ArrowType.beq t u && beqFieldList fs gs
  | _, _ => false
end

/-- `record_batch.schema.equals(arrow_schema)`: structural equality of the
two schemas (field names and types, in order). -/
def schemaEquals (s t : Schema) : Bool := beqFieldList s t

/-! ## The registry (`_TYPE_HANDLER_MAP` and `_BuildTypeHandlers`) -/

/-- The handler classes, as registry entries. -/
inductive HandlerKind where
  | denseH
  | defaultFillingDenseH
  | varLenSparseH
  | sparseH
  | raggedH
deriving DecidableEq, Repr

/-- Dispatch of the `CanHandle` static method of a handler class.  The
registry only pairs a class with a representation of its own kind; the
cross-kind pairings are unreachable through it. -/
def canHandle (k : HandlerKind) (schema : Schema) (rep : TensorRepresentation) :
    Except PyErr Bool :=
  match k, rep with
  | .denseH, .dense_tensor r => denseCanHandle schema r
  | .defaultFillingDenseH, .dense_tensor r => defaultFillingDenseCanHandle schema r
  | .varLenSparseH, .varlen_sparse_tensor r => varLenSparseCanHandle schema r
  | .sparseH, .sparse_tensor r => sparseCanHandle schema r
  | .raggedH, .ragged_tensor r => raggedCanHandle schema r
  | _, _ => .ok false

/-- Dispatch of the constructor of a handler class (same unreachability
note as `canHandle`). -/
def handlerInit (k : HandlerKind) (schema : Schema) (rep : TensorRepresentation) :
    Except PyErr Handler :=
  match k, rep with
  | .denseH, .dense_tensor r => (denseHandlerDataInit schema r).map .dense
  | .defaultFillingDenseH, .dense_tensor r => defaultFillingDenseInit schema r
  | .varLenSparseH, .varlen_sparse_tensor r => varLenSparseInit schema r
  | .sparseH, .sparse_tensor r => sparseInit schema r
  | .raggedH, .ragged_tensor r => raggedInit schema r
  | _, _ => .error (.typeError "handler class applied to a representation of another kind")

/-- `_TYPE_HANDLER_MAP`, looked up by `rep.WhichOneof("kind")`: the ordered
candidate handler classes per kind (`None` when the oneof is unset). -/
def typeHandlerMap : TensorRepresentation → Option (List HandlerKind)
  | .dense_tensor _ => some [.denseH, .defaultFillingDenseH]
  | .varlen_sparse_tensor _ => some [.varLenSparseH]
  | .sparse_tensor _ => some [.sparseH]
  | .ragged_tensor _ => some [.raggedH]
  | .kind_unset => none

/-- The inner loop of `_BuildTypeHandlers`: try each candidate class in
declared order and construct the first whose `CanHandle` accepts. -/
def selectHandler (schema : Schema) (rep : TensorRepresentation) :
    List HandlerKind → Except PyErr (Option Handler)
  | [] => .ok none
  | k :: rest => do
    let accepted ← canHandle k schema rep
    if accepted then do
      let h ← handlerInit k schema rep
      pure (some h)
    else
      selectHandler schema rep rest

/-- The message of `_BuildTypeHandlers` for an unknown (unset) kind, naming
the tensor and the representation. -/
def unableNoKindMsg (tensor_name : String) (rep : TensorRepresentation) : String :=
  s!"Unable to handle tensor {tensor_name} with rep {rep.describe}"

/-- The message of `_BuildTypeHandlers` when no candidate accepts, naming
the tensor and the representation. -/
def unableNoHandlerMsg (tensor_name : String) (rep : TensorRepresentation) : String :=
  s!"Unable to handle tensor {tensor_name} with rep {rep.describe} against schema"

/-- `_BuildTypeHandlers`: one `(name, handler)` per representation, in
declaration order; fail naming the tensor and representation when the kind
is unset or no candidate accepts. -/
def buildTypeHandlers (tensor_representations : List (String × TensorRepresentation))
    (schema : Schema) : Except PyErr (List (String × Handler)) :=
  match tensor_representations with
  | [] => .ok []
  | (tensor_name, rep) :: rest =>
    match typeHandlerMap rep with
    | none => .error (.valueError (unableNoKindMsg tensor_name rep))
    | some ks => do
      match ← selectHandler schema rep ks with
      | none => .error (.valueError (unableNoHandlerMsg tensor_name rep))
      | some h => do
        let tail ← buildTypeHandlers rest schema
        pure ((tensor_name, h) :: tail)

/-! ## The adapter -/

/-- `TensorAdapterConfig`. -/
structure TensorAdapterConfig where
  arrow_schema : Schema
  tensor_representations : List (String × TensorRepresentation)
  original_type_specs : Option (List (String × TypeSpec)) := none

/-- The constructed `TensorAdapter` state. -/
structure TensorAdapter where
  arrow_schema : Schema
  type_handlers : List (String × Handler)
  type_specs : List (String × TypeSpec)
  original_type_specs : List (String × TypeSpec)

/-- The construction-failure message of `TensorAdapter.__init__` for a
missing or unequal externally-declared type spec. -/
def typeSpecMismatchMsg (tensor_name : String) : String :=
  s!"original_type_specs must be a superset of type_specs derived from TensorRepresentations. But for tensor {tensor_name}, the original spec is missing or different."

/-- The validation loop of `TensorAdapter.__init__`: every derived spec
must appear, equal, in the original spec map. -/
def checkOriginalSpecs (original : List (String × TypeSpec)) :
    List (String × TypeSpec) → Except PyErr Unit
  | [] => .ok ()
  | (tensor_name, ts) :: rest =>
    match lookupByName original tensor_name with
    | none => .error (.valueError (typeSpecMismatchMsg tensor_name))
    | some o =>
      if o ≠ ts then .error (.valueError (typeSpecMismatchMsg tensor_name))
      else checkOriginalSpecs original rest

/-- `TensorAdapter.__init__`. -/
def adapterInit (config : TensorAdapterConfig) : Except PyErr TensorAdapter := do
  let type_handlers ← buildTypeHandlers config.tensor_representations config.arrow_schema
  let type_specs := type_handlers.map (fun p => (p.1, p.2.typeSpec))
  let original_type_specs := config.original_type_specs.getD type_specs
  checkOriginalSpecs original_type_specs type_specs
  pure ⟨config.arrow_schema, type_handlers, type_specs, original_type_specs⟩

/-- `GetTensor` dispatch over the handler classes. -/
def Handler.getTensor : Handler → RecordBatch Int → Bool → Except PyErr (Produced Int)
  | .dense d, b, e => denseGetTensor d b e
  | .defaultFillingDense d _ _, b, e => defaultFillingDenseGetTensor d b e
  | .varlenSparse v, b, e => varLenGetTensor v b e
  | .sparse s, b, e => sparseGetTensor s b e
  | .ragged r, b, e => raggedGetTensor r b e

def eagerNotEnabledMsg : String :=
  "Eager Tensors were requested but eager mode was not enabled."

/-- The wrapping of a handler failure by `ToBatchTensors`, naming the
offending tensor. -/
def handlerWrapMsg (tensor_name : String) (e : PyErr) : String :=
  s!"Error raised when handling tensor {tensor_name}: {e.message}"

/-- The handler loop of `ToBatchTensors`: run every handler in order; any
failure is wrapped with the tensor name and re-raised, aborting the call. -/
def runHandlers (b : RecordBatch Int) (produce_eager_tensors : Bool) :
    List (String × Handler) → Except PyErr (List (String × Produced Int))
  | [] => .ok []
  | (tensor_name, h) :: rest =>
    match h.getTensor b produce_eager_tensors with
    | .error e => .error (.valueError (handlerWrapMsg tensor_name e))
    | .ok v =>
      (runHandlers b produce_eager_tensors rest).map
        (fun tail => (tensor_name, v) :: tail)

/-- `TensorAdapter.ToBatchTensors`: the eager-mode check comes first, then
the schema identity check, then the handler loop. -/
def toBatchTensors (ad : TensorAdapter) (record_batch : RecordBatch Int)
    (produce_eager_tensors : Option Bool) (tf_executing_eagerly : Bool) :
    Except PyErr (List (String × Produced Int)) :=
  if produce_eager_tensors.getD false && !tf_executing_eagerly then
    .error (.runtimeError eagerNotEnabledMsg)
  else
    let produce := produce_eager_tensors.getD tf_executing_eagerly
    if !(schemaEquals record_batch.schema ad.arrow_schema) then
      .error (.valueError "Expected same schema.")
    else
      runHandlers record_batch produce ad.type_handlers

/-- The row-partition levels of a ragged value, outermost first. -/
def RaggedValue.rowSplitsList : RaggedValue Int → List (List Int)
  | .leafV _ => []
  | .partitioned rs child => rs :: child.rowSplitsList

/-- The innermost flat values of a ragged value. -/
def RaggedValue.flatValues : RaggedValue Int → List Int
  | .leafV vs => vs
  | .partitioned _ child => child.flatValues

/-- The claims' independent description of sparse coordinate column 0: for
each row of the value column in order, its length many copies of its row
index ("each value's owning row index"). -/
def ownerRowIndices (vrows : List (List Int)) : List Int :=
  go 0 vrows
where
  go : Nat → List (List Int) → List Int
    | _, [] => []
    | i, r :: rest => List.replicate r.length (i : Int) ++ go (i + 1) rest

/-- The claims' description of when path traversal fails, after the first
step: a requested struct child is missing, or path steps remain after
reaching a non-list, non-struct leaf.  A path exhausted at a struct-like
type is not a failure (the enumeration ends there). -/
def pathStepFails : ArrowType → List String → Bool
  | .struct _, [] => false
  | .struct fields, step :: rest =>
    match h : lookupByName fields step with
    | none => true
    | some t => pathStepFails t rest
  | .list t, p => pathStepFails t p
  | .largeList t, p => pathStepFails t p
  | _, p => !p.isEmpty
termination_by t _ => sizeOf t
decreasing_by
  · have := sizeOf_lookupByName fields step t h
    simp; omega
  · simp
  · simp

/-- The claims' description of when path traversal fails: the first step
names a missing schema field, or the rest of the walk fails per
`pathStepFails` (the empty path is outside the spec's ColumnPath model). -/
def pathResolverFails (schema : Schema) (p : List String) : Bool :=
  match p with
  | [] => true
  | s :: rest =>
    match lookupByName schema s with
    | none => true
    | some t => pathStepFails t rest

/-! ## Theorems

Lemmas about the canonical (offset-0, null-free) list column built by
`listOfRows`, then one theorem per claim (with a witness where the theorem
carries hypotheses). -/

theorem cumOffsets_go_length {α : Type} :
    ∀ (rs : List (List α)) (acc : Int), (cumOffsets.go acc rs).length = rs.length := by
  intro rs
  induction rs with
  | nil => intro acc; rfl
  | cons r rest ih => intro acc; simp [cumOffsets.go, ih]

theorem cumOffsets_length {α : Type} (rows : List (List α)) :
    (cumOffsets rows).length = rows.length + 1 := by
  simp [cumOffsets, cumOffsets_go_length]

theorem flatten_listOfRows {α : Type} (rows : List (List α)) :
    (listOfRows rows).flatten = .prim 0 rows.flatten := by
  simp [listOfRows, AArray.flatten, cumOffsets, AArray.addOffset]

theorem len_listOfRows {α : Type} (rows : List (List α)) :
    (listOfRows rows).len = rows.length := by
  simp [listOfRows, AArray.len, cumOffsets_length]

theorem len_prim_zero {α : Type} (vs : List α) : (AArray.prim 0 vs).len = vs.length := by
  simp [AArray.len]

theorem asNp_prim_zero {α : Type} (vs : List α) : (AArray.prim 0 vs).asNp = vs := by
  simp [AArray.asNp]

/-- Claim C1: for every batch, the dense handler's `GetTensor` flattens the
configured column into one flat buffer; when the flattened length equals
`rowCount * prod(declaredDims)` it returns that buffer reshaped to
`[rowCount, *declaredDims]` in row-major order, and otherwise it fails with
the size-mismatch error naming the expected and actual element counts. -/
theorem C1_dense_getTensor
    (schema : Schema) (rep : DenseTensorRep) (d : DenseHandlerData)
    (b : RecordBatch Int) (rows : List (List Int)) (eager : Bool)
    (hinit : denseHandlerDataInit schema rep = .ok d)
    (hcol : columnAt b d.column_index = .ok (listOfRows rows)) :
    denseGetTensor d b eager =
      if (rows.flatten.length : Int) = (rows.length : Int) * rep.shape.prod then
        .ok ⟨eager, .denseT ((rows.length : Int) :: rep.shape) rows.flatten⟩
      else
        .error (.valueError (denseSizeMismatchMsg
          ((rows.length : Int) * rep.shape.prod) rows.flatten.length)) := by
  have hshape : d.unbatched_shape = rep.shape ∧ d.unbatched_flat_len = rep.shape.prod := by
    simp only [denseHandlerDataInit, bind, Except.bind] at hinit
    cases hnv : getNestDepthAndValueType schema [rep.column_name] with
    | error e => rw [hnv] at hinit; exact absurd hinit (by simp)
    | ok p =>
      rw [hnv] at hinit
      obtain ⟨dep, vt⟩ := p
      dsimp only at hinit
      cases hdt : arrowTypeToTfDtype vt with
      | error e => rw [hdt] at hinit; exact absurd hinit (by simp)
      | ok dt =>
        rw [hdt] at hinit
        simp only [pure, Except.pure, Except.ok.injEq] at hinit
        subst hinit
        exact ⟨rfl, rfl⟩
  obtain ⟨hus, hufl⟩ := hshape
  simp only [denseGetTensor, bind, Except.bind, hcol]
  simp only [listArrayToTensor, flatten_listOfRows, len_listOfRows, len_prim_zero,
    hus, hufl, asNp_prim_zero]
  by_cases h : (rows.flatten.length : Int) = (rows.length : Int) * rep.shape.prod
  · simp [h]
  · simp [h]

/-- Witness for C1 at the spec's example: shape `[2]`, row lengths
`[2,2,2]` convert to shape `[3,2]` in row-major order, and row lengths
`[2,3,2]` fail with expected 6, got 7. -/
theorem C1_dense_getTensor_witness :
    denseGetTensor ⟨0, .tfInt64, [2], 2, false⟩
        ⟨[("f", .list .int64)], [listOfRows [[1, 2], [3, 4], [5, 6]]], 3⟩ false
      = .ok ⟨false, .denseT [3, 2] [1, 2, 3, 4, 5, 6]⟩ ∧
    denseGetTensor ⟨0, .tfInt64, [2], 2, false⟩
        ⟨[("f", .list .int64)], [listOfRows [[1, 2], [3, 4, 5], [6, 7]]], 3⟩ false
      = .error (.valueError (denseSizeMismatchMsg 6 7)) := by
  constructor
  · have h := C1_dense_getTensor [("f", .list .int64)] ⟨"f", [2], none⟩
      ⟨0, .tfInt64, [2], 2, false⟩
      ⟨[("f", .list .int64)], [listOfRows [[1, 2], [3, 4], [5, 6]]], 3⟩
      [[1, 2], [3, 4], [5, 6]] false
      (by simp [denseHandlerDataInit, getNestDepthAndValueType, enumerateTypesAlongPath,
        enumFromType, schemaField, lookupByName, getFieldIndex, getFieldIndex.go,
        arrowTypeToTfDtype, convertToBinaryNeeded, bind, Except.bind, pure, Except.pure,
        isListLike, List.countP, List.countP.go, Except.map, List.getLast?, List.getLastD])
      (by simp [columnAt])
    simpa using h
  · have h := C1_dense_getTensor [("f", .list .int64)] ⟨"f", [2], none⟩
      ⟨0, .tfInt64, [2], 2, false⟩
      ⟨[("f", .list .int64)], [listOfRows [[1, 2], [3, 4, 5], [6, 7]]], 3⟩
      [[1, 2], [3, 4, 5], [6, 7]] false
      (by simp [denseHandlerDataInit, getNestDepthAndValueType, enumerateTypesAlongPath,
        enumFromType, schemaField, lookupByName, getFieldIndex, getFieldIndex.go,
        arrowTypeToTfDtype, convertToBinaryNeeded, bind, Except.bind, pure, Except.pure,
        isListLike, List.countP, List.countP.go, Except.map, List.getLast?, List.getLastD])
      (by simp [columnAt])
    simpa using h

theorem exbind_ok {ε α β : Type} (a : α) (f : α → Except ε β) :
    (Except.ok a >>= f : Except ε β) = f a := rfl

theorem exbind_err {ε α β : Type} (e : ε) (f : α → Except ε β) :
    ((Except.error e : Except ε α) >>= f) = .error e := rfl

theorem offsetDiffs_go {α : Type} :
    ∀ (rs : List (List α)) (acc : Int),
      offsetDiffs (acc :: cumOffsets.go acc rs) = rs.map List.length := by
  intro rs
  induction rs with
  | nil => intro acc; simp [cumOffsets.go, offsetDiffs]
  | cons r rest ih =>
    intro acc
    simp only [cumOffsets.go, offsetDiffs, List.zip, List.map, List.tail,
      List.zipWith] at *
    rw [show ((acc + (r.length : Int) - acc).toNat) = r.length by omega,
      ih (acc + r.length)]

theorem offsetDiffs_cumOffsets {α : Type} (rows : List (List α)) :
    offsetDiffs (cumOffsets rows) = rows.map List.length := by
  simp [cumOffsets, offsetDiffs_go]

theorem parentIndicesFromDiffs_map_length :
    ∀ (rows : List (List Int)) (i : Nat),
      parentIndicesFromDiffs i (rows.map List.length) = ownerRowIndices.go i rows := by
  intro rows
  induction rows with
  | nil => intro i; rfl
  | cons r rest ih => intro i; simp [parentIndicesFromDiffs, ownerRowIndices.go, ih]

theorem parent_listOfRows (vrows : List (List Int)) :
    getFlattenedArrayParentIndices (listOfRows vrows) = ownerRowIndices vrows := by
  simp [getFlattenedArrayParentIndices, listOfRows, ownerRowIndices,
    offsetDiffs_cumOffsets, parentIndicesFromDiffs_map_length]

theorem ownerRowIndices_go_length :
    ∀ (rows : List (List Int)) (i : Nat),
      (ownerRowIndices.go i rows).length = rows.flatten.length := by
  intro rows
  induction rows with
  | nil => intro i; rfl
  | cons r rest ih => intro i; simp [ownerRowIndices.go, ih]

theorem ownerRowIndices_length (vrows : List (List Int)) :
    (ownerRowIndices vrows).length = vrows.flatten.length := by
  simp [ownerRowIndices, ownerRowIndices_go_length]

theorem mapM_flatten_cols (b : RecordBatch Int) :
    ∀ (idxs : List Int) (irowss : List (List (List Int))),
      List.Forall₂ (fun idx rows => columnAt b idx = .ok (listOfRows rows)) idxs irowss →
      (idxs.mapM (fun i => do
          let col ← columnAt b i
          pure col.flatten.asNp) : Except PyErr (List (List Int)))
        = .ok (irowss.map (fun r => r.flatten)) := by
  intro idxs irowss h
  rw [← List.mapM'_eq_mapM]
  induction h with
  | nil => rfl
  | cons hab hrest ih =>
    simp only [List.mapM', hab, bind, Except.bind, pure, Except.pure, List.map,
      flatten_listOfRows, asNp_prim_zero] at ih ⊢
    rw [ih]

theorem list_all_map {α β : Type} (f : α → β) (p : β → Bool) :
    ∀ l : List α, (l.map f).all p = l.all (fun a => p (f a)) := by
  intro l
  induction l with
  | nil => rfl
  | cons a t ih => simp [ih]

/-- Claim C2: for every batch, the sparse handler's `GetTensor` builds a COO
matrix whose column 0 is each value's owning row index and whose columns
1..N are the flattened declared index columns in declared order, with
`dense_shape = [rowCount, *declaredDims]`; flattened index-column lengths
disagreeing with the value-column length fail with a stacking error naming
the observed lengths. -/
theorem C2_sparse_getTensor
    (schema : Schema) (rep : SparseTensorRep) (s : SparseHandlerData)
    (b : RecordBatch Int) (vrows : List (List Int)) (irowss : List (List (List Int)))
    (eager : Bool)
    (hch : sparseCanHandle schema rep = .ok true)
    (hinit : sparseInit schema rep = .ok (.sparse s))
    (hval : columnAt b s.value_column_index = .ok (listOfRows vrows))
    (hidx : List.Forall₂ (fun idx rows => columnAt b idx = .ok (listOfRows rows))
      s.index_column_indices irowss) :
    sparseGetTensor s b eager =
      if irowss.all (fun r => r.flatten.length = vrows.flatten.length) then
        .ok ⟨eager, .sparseT
          ((List.range vrows.flatten.length).map (fun j =>
            (ownerRowIndices vrows).getD j 0 :: irowss.map (fun r => r.flatten.getD j 0)))
          vrows.flatten
          ((b.num_rows : Int) :: rep.dense_shape)⟩
      else
        .error (.valueError (sparseStackErrMsg vrows.flatten.length
          (vrows.flatten.length :: irowss.map (fun r => r.flatten.length)))) := by
  have hs : s.shape = rep.dense_shape ∧ s.coo_size = rep.dense_shape.length + 1 ∧
      s.index_column_indices = rep.index_column_names.map (getFieldIndex schema) := by
    simp only [sparseInit, bind, Except.bind] at hinit
    cases hnv : getNestDepthAndValueType schema [rep.value_column_name] with
    | error e => rw [hnv] at hinit; exact absurd hinit (by simp)
    | ok p =>
      rw [hnv] at hinit
      obtain ⟨dep, vt⟩ := p
      dsimp only at hinit
      cases hdt : arrowTypeToTfDtype vt with
      | error e => rw [hdt] at hinit; exact absurd hinit (by simp)
      | ok dt =>
        rw [hdt] at hinit
        simp only [pure, Except.pure, Except.ok.injEq, Handler.sparse.injEq] at hinit
        subst hinit
        exact ⟨rfl, rfl, rfl⟩
  obtain ⟨hshape, hcoo, hicols⟩ := hs
  have hlen : rep.dense_shape.length = rep.index_column_names.length := by
    by_contra hne
    simp only [sparseCanHandle] at hch
    rw [if_pos hne] at hch
    simp [pure, Except.pure] at hch
  have hlen2 : irowss.length = rep.index_column_names.length := by
    have := hidx.length_eq
    rw [hicols] at this
    simpa using this.symm
  simp only [sparseGetTensor, hval, exbind_ok]
  rw [mapM_flatten_cols b s.index_column_indices irowss hidx]
  simp only [exbind_ok, flatten_listOfRows, asNp_prim_zero, parent_listOfRows]
  have hallEq : ((ownerRowIndices vrows :: irowss.map (fun r => r.flatten)).all
        (fun arr => arr.length = vrows.flatten.length))
      = irowss.all (fun r => r.flatten.length = vrows.flatten.length) := by
    simp [List.all_cons, ownerRowIndices_length, list_all_map]
  have hcooEq : (ownerRowIndices vrows :: irowss.map (fun r => r.flatten)).length
      = s.coo_size := by
    simp [hcoo, hlen, ← hlen2]
  by_cases hcond : irowss.all (fun r => r.flatten.length = vrows.flatten.length)
  · rw [if_pos hcond, if_pos (by rw [hallEq, hcooEq]; exact ⟨hcond, rfl⟩)]
    simp only [pure, Except.pure, stackColumns, List.map_cons, List.map_map, hshape]
    rfl
  · rw [if_neg hcond, if_neg (by rw [hallEq, hcooEq]; intro hc; exact hcond hc.1)]
    simp only [List.map_cons, List.map_map, ownerRowIndices_length]
    rfl

/-- Witness for C2 at the spec's example (payloads 5, 7, 10 standing for
0.5, 0.7, 1.0): indices `[[0,1],[0,3],[1,2]]`, values in order,
`dense_shape = [2, 10]`. -/
theorem C2_sparse_getTensor_witness :
    sparseGetTensor ⟨[0], 1, [10], .tfFloat64, 2, false⟩
        ⟨[("idx", .list .int64), ("val", .list .float64)],
         [listOfRows [[1, 3], [2]], listOfRows [[5, 7], [10]]], 2⟩ false
      = .ok ⟨false, .sparseT [[0, 1], [0, 3], [1, 2]] [5, 7, 10] [2, 10]⟩ := by
  have h := C2_sparse_getTensor
    [("idx", .list .int64), ("val", .list .float64)]
    ⟨[10], ["idx"], "val"⟩
    ⟨[0], 1, [10], .tfFloat64, 2, false⟩
    ⟨[("idx", .list .int64), ("val", .list .float64)],
     [listOfRows [[1, 3], [2]], listOfRows [[5, 7], [10]]], 2⟩
    [[5, 7], [10]] [[[1, 3], [2]]] false
    (by simp [sparseCanHandle, sparseIndexColumnsOk, getNestDepthAndValueType,
      enumerateTypesAlongPath, enumFromType, schemaField, lookupByName,
      isIntegerType, isSupportedArrowValueType, isFloatingType, isBinaryLike,
      isListLike, bind, Except.bind, pure, Except.pure, Except.map,
      List.getLast?, List.getLastD, List.countP, List.countP.go])
    (by simp [sparseInit, getNestDepthAndValueType, enumerateTypesAlongPath,
      enumFromType, schemaField, lookupByName, getFieldIndex, getFieldIndex.go,
      arrowTypeToTfDtype, convertToBinaryNeeded, bind, Except.bind, pure, Except.pure,
      Except.map, List.getLast?, List.getLastD, List.countP, List.countP.go,
      isListLike])
    (by simp [columnAt])
    (by exact .cons (by simp [columnAt]) .nil)
  simp only [List.all_cons, List.all_nil] at h
  simpa [ownerRowIndices, ownerRowIndices.go, List.range_succ] using h

theorem raggedFromRowSplits_reassemble :
    ∀ v : RaggedValue Int, raggedFromRowSplits v.rowSplitsList v.flatValues = v := by
  intro v
  induction v with
  | leafV vs => rfl
  | partitioned rs child ih =>
    simp only [RaggedValue.rowSplitsList, RaggedValue.flatValues,
      raggedFromRowSplits, List.reverse_cons, List.foldl_append, List.foldl_cons,
      List.foldl_nil] at ih ⊢
    rw [ih]

theorem raggedWalk_direct :
    ∀ (width : Nat) (a : AArray Int) (p : List String) (rs : List (List Int)),
      raggedWalk width a p rs =
        (raggedDirect width a p).map (fun v => (rs ++ v.rowSplitsList, v.flatValues)) := by
  intro width a p rs
  induction a, p, rs using raggedWalk.induct width with
  | case1 a p rs hoff =>
    rw [raggedWalk.eq_def, raggedDirect.eq_def]
    simp [hoff, Except.map]
  | case2 rs o fields hoff =>
    rw [raggedWalk.eq_def, raggedDirect.eq_def]
    simp [show ¬ ((AArray.structA o fields).off ≠ 0) from hoff, Except.map]
  | case3 rs o fields step rest hlk hoff =>
    rw [raggedWalk.eq_def, raggedDirect.eq_def]
    simp only [show ¬ ((AArray.structA o fields).off ≠ 0) from hoff, ite_false]
    split <;> simp_all [Except.map]
  | case4 rs o fields step rest child hlk hoff ih =>
    rw [raggedWalk.eq_def, raggedDirect.eq_def]
    simp only [show ¬ ((AArray.structA o fields).off ≠ 0) from hoff, ite_false]
    split <;> simp_all [Except.map]
  | case5 p rs o offsets child hoff ih =>
    rw [raggedWalk.eq_def, raggedDirect.eq_def]
    simp only [show ¬ ((AArray.listA o offsets child).off ≠ 0) from hoff, ite_false]
    rw [ih]
    cases hdc : raggedDirect width (AArray.listA o offsets child).flatten p with
    | error e => simp [Except.map]
    | ok v =>
      simp [Except.map, RaggedValue.rowSplitsList, RaggedValue.flatValues]
  | case6 p rs o vs hoff =>
    rw [raggedWalk.eq_def, raggedDirect.eq_def]
    simp [show ¬ ((AArray.prim o vs).off ≠ 0) from hoff, Except.map,
      RaggedValue.rowSplitsList, RaggedValue.flatValues]

/-- Claim C3: the ragged handler's `GetTensor` walks from the path's first
column, descending into the named child at each struct-like array and
recording the per-element offsets (cast to the configured width) as one
row-partition level before flattening at each list-like array, stopping at
the leaf; the result folds the recorded levels from innermost to outermost
around the flat values — i.e. it equals the direct recursive fold
`raggedDirect`. -/
theorem C3_ragged_getTensor
    (r : RaggedHandlerData) (b : RecordBatch Int) (column : AArray Int) (eager : Bool)
    (hcol : columnAt b r.column_index = .ok column) :
    raggedGetTensor r b eager =
      (raggedDirect (offsetsDtypeWidth r.row_partition_dtype) column (r.col_path.drop 1)).map
        (fun v => ⟨eager, .raggedT v⟩) := by
  simp only [raggedGetTensor, hcol, exbind_ok]
  rw [raggedWalk_direct]
  cases raggedDirect (offsetsDtypeWidth r.row_partition_dtype) column (r.col_path.drop 1) with
  | error e => rfl
  | ok v => simp [exbind_ok, Except.map, raggedFromRowSplits_reassemble, pure, Except.pure]

/-- Witness for C3 at the spec's example (payloads 10..40 standing for
1.0..4.0): rows `[[1.0,2.0],[3.0]]`, `[[4.0]]` give outer row-splits
`[0,2,3]`, inner row-splits `[0,2,3,4]`, flat values in order. -/
theorem C3_ragged_getTensor_witness :
    raggedGetTensor ⟨0, ["f"], 2, .tfFloat64, .INT64, false⟩
        ⟨[("f", .list (.list .float64))],
         [.listA 0 [0, 2, 3] (.listA 0 [0, 2, 3, 4] (.prim 0 [10, 20, 30, 40]))], 2⟩
        false
      = .ok ⟨false, .raggedT (.partitioned [0, 2, 3]
          (.partitioned [0, 2, 3, 4] (.leafV [10, 20, 30, 40])))⟩ := by
  have h := C3_ragged_getTensor ⟨0, ["f"], 2, .tfFloat64, .INT64, false⟩
    ⟨[("f", .list (.list .float64))],
     [.listA 0 [0, 2, 3] (.listA 0 [0, 2, 3, 4] (.prim 0 [10, 20, 30, 40]))], 2⟩
    (.listA 0 [0, 2, 3] (.listA 0 [0, 2, 3, 4] (.prim 0 [10, 20, 30, 40])))
    false (by simp [columnAt])
  rw [h]
  norm_num [raggedDirect, AArray.off, AArray.flatten, AArray.addOffset,
    intCastWidth, offsetsDtypeWidth, Except.map]

theorem raggedVisited_ne_nil (a : AArray Int) (p : List String) :
    raggedVisited a p ≠ [] := by
  rw [raggedVisited.eq_def]
  exact List.cons_ne_nil _ _

theorem raggedWalk_offsets (width : Nat) :
    ∀ (a : AArray Int) (p : List String) (rs : List (List Int)),
      ((∃ x ∈ raggedVisited a p, x.off ≠ 0) →
          raggedWalk width a p rs = .error (.valueError raggedSliceErrMsg)) ∧
      (∀ out, raggedWalk width a p rs = .ok out →
          ∀ x ∈ raggedVisited a p, x.off = 0) ∧
      (∀ x ∈ raggedVisited a p, x.off ≠ 0 →
          (raggedVisited a p).getLast? = some x) := by
  intro a p rs
  induction a, p, rs using raggedWalk.induct width with
  | case1 a p rs hoff =>
    have hw : raggedWalk width a p rs = .error (.valueError raggedSliceErrMsg) := by
      rw [raggedWalk.eq_def]; simp [hoff]
    have hv : raggedVisited a p = [a] := by
      rw [raggedVisited.eq_def]; simp [hoff]
    rw [hw, hv]
    refine ⟨fun _ => rfl, fun out hout => absurd hout (by simp), ?_⟩
    intro x hx hxo
    simp only [List.mem_cons, List.not_mem_nil, or_false] at hx
    subst hx
    rfl
  | case2 rs o fields hoff =>
    have hz : (AArray.structA o fields : AArray Int).off = 0 := by
      simp [AArray.off] at hoff ⊢; omega
    have hw : raggedWalk width (AArray.structA o fields) [] rs
        = .error (.indexError "tuple index out of range") := by
      rw [raggedWalk.eq_def]; simp [hoff]
    have hv : raggedVisited (AArray.structA o fields) [] = [AArray.structA o fields] := by
      rw [raggedVisited.eq_def]; simp [hoff]
    rw [hw, hv]
    refine ⟨?_, fun out hout => absurd hout (by simp), ?_⟩
    · intro hex
      obtain ⟨x, hx, hxo⟩ := hex
      simp only [List.mem_cons, List.not_mem_nil, or_false] at hx
      subst hx
      exact absurd hz hxo
    · intro x hx hxo
      simp only [List.mem_cons, List.not_mem_nil, or_false] at hx
      subst hx
      exact absurd hz hxo
  | case3 rs o fields step rest hlk hoff =>
    have hz : (AArray.structA o fields : AArray Int).off = 0 := by
      simp [AArray.off] at hoff ⊢; omega
    have hw : raggedWalk width (AArray.structA o fields) (step :: rest) rs
        = .error (.keyError s!"Field {step} does not exist in struct array") := by
      rw [raggedWalk.eq_def]
      simp only [hoff, ite_false, not_false_eq_true, if_neg]
      split <;> simp_all
    have hv : raggedVisited (AArray.structA o fields) (step :: rest)
        = [AArray.structA o fields] := by
      rw [raggedVisited.eq_def]
      simp only [hoff, ite_false, not_false_eq_true, if_neg, List.cons.injEq, true_and]
      split <;> simp_all
    rw [hw, hv]
    refine ⟨?_, fun out hout => absurd hout (by simp), ?_⟩
    · intro hex
      obtain ⟨x, hx, hxo⟩ := hex
      simp only [List.mem_cons, List.not_mem_nil, or_false] at hx
      subst hx
      exact absurd hz hxo
    · intro x hx hxo
      simp only [List.mem_cons, List.not_mem_nil, or_false] at hx
      subst hx
      exact absurd hz hxo
  | case4 rs o fields step rest child hlk hoff ih =>
    have hz : (AArray.structA o fields : AArray Int).off = 0 := by
      simp [AArray.off] at hoff ⊢; omega
    have hw : raggedWalk width (AArray.structA o fields) (step :: rest) rs
        = raggedWalk width child rest rs := by
      rw [raggedWalk.eq_def]
      simp only [hoff, ite_false, not_false_eq_true, if_neg]
      split <;> simp_all
    have hv : raggedVisited (AArray.structA o fields) (step :: rest)
        = AArray.structA o fields :: raggedVisited child rest := by
      rw [raggedVisited.eq_def]
      simp only [hoff, ite_false, not_false_eq_true, if_neg, List.cons.injEq, true_and]
      split <;> simp_all
    rw [hw, hv]
    obtain ⟨ih1, ih2, ih3⟩ := ih
    refine ⟨?_, ?_, ?_⟩
    · intro hex
      obtain ⟨x, hx, hxo⟩ := hex
      rcases List.mem_cons.mp hx with hx | hx
      · subst hx; exact absurd hz hxo
      · exact ih1 ⟨x, hx, hxo⟩
    · intro out hout x hx
      rcases List.mem_cons.mp hx with hx | hx
      · subst hx; exact hz
      · exact ih2 out hout x hx
    · intro x hx hxo
      rcases List.mem_cons.mp hx with hx | hx
      · subst hx; exact absurd hz hxo
      · cases htail : raggedVisited child rest with
        | nil => exact absurd htail (raggedVisited_ne_nil child rest)
        | cons y ys =>
          have hlast := ih3 x hx hxo
          rw [htail] at hlast
          simpa [List.getLast?_cons_cons] using hlast
  | case5 p rs o offsets child hoff ih =>
    have hz : (AArray.listA o offsets child : AArray Int).off = 0 := by
      simp [AArray.off] at hoff ⊢; omega
    have hw : raggedWalk width (AArray.listA o offsets child) p rs
        = raggedWalk width (AArray.listA o offsets child).flatten p
            (rs ++ [offsets.map (intCastWidth width)]) := by
      rw [raggedWalk.eq_def]; simp [hoff]
    have hv : raggedVisited (AArray.listA o offsets child) p
        = AArray.listA o offsets child
            :: raggedVisited (AArray.listA o offsets child).flatten p := by
      rw [raggedVisited.eq_def]; simp [hoff]
    rw [hw, hv]
    obtain ⟨ih1, ih2, ih3⟩ := ih
    refine ⟨?_, ?_, ?_⟩
    · intro hex
      obtain ⟨x, hx, hxo⟩ := hex
      rcases List.mem_cons.mp hx with hx | hx
      · subst hx; exact absurd hz hxo
      · exact ih1 ⟨x, hx, hxo⟩
    · intro out hout x hx
      rcases List.mem_cons.mp hx with hx | hx
      · subst hx; exact hz
      · exact ih2 out hout x hx
    · intro x hx hxo
      rcases List.mem_cons.mp hx with hx | hx
      · subst hx; exact absurd hz hxo
      · cases htail : raggedVisited (AArray.listA o offsets child).flatten p with
        | nil => exact absurd htail (raggedVisited_ne_nil _ p)
        | cons y ys =>
          have hlast := ih3 x hx hxo
          rw [htail] at hlast
          simpa [List.getLast?_cons_cons] using hlast
  | case6 p rs o vs hoff =>
    have hz : (AArray.prim o vs : AArray Int).off = 0 := by
      simp [AArray.off] at hoff ⊢; omega
    have hv : raggedVisited (AArray.prim o vs) p = [AArray.prim o vs] := by
      rw [raggedVisited.eq_def]; simp [hoff]
    rw [hv]
    refine ⟨?_, ?_, ?_⟩
    · intro hex
      obtain ⟨x, hx, hxo⟩ := hex
      simp only [List.mem_cons, List.not_mem_nil, or_false] at hx
      subst hx
      exact absurd hz hxo
    · intro out hout x hx
      simp only [List.mem_cons, List.not_mem_nil, or_false] at hx
      subst hx
      exact hz
    · intro x hx hxo
      simp only [List.mem_cons, List.not_mem_nil, or_false] at hx
      subst hx
      exact absurd hz hxo

/-- Claim C8: the ragged handler's `GetTensor` fails with the conversion
error whenever any array traversed along the feature path carries a
non-zero slice offset, and the traversal never proceeds past such an array
(an offending array is always the last one visited; a successful run
visits only offset-0 arrays). -/
theorem C8_ragged_slice_rejection
    (r : RaggedHandlerData) (b : RecordBatch Int) (column : AArray Int) (eager : Bool)
    (hcol : columnAt b r.column_index = .ok column) :
    ((∃ x ∈ raggedVisited column (r.col_path.drop 1), x.off ≠ 0) →
        raggedGetTensor r b eager = .error (.valueError raggedSliceErrMsg)) ∧
    (∀ out, raggedGetTensor r b eager = .ok out →
        ∀ x ∈ raggedVisited column (r.col_path.drop 1), x.off = 0) ∧
    (∀ x ∈ raggedVisited column (r.col_path.drop 1), x.off ≠ 0 →
        (raggedVisited column (r.col_path.drop 1)).getLast? = some x) := by
  obtain ⟨h1, h2, h3⟩ := raggedWalk_offsets (offsetsDtypeWidth r.row_partition_dtype)
    column (r.col_path.drop 1) []
  refine ⟨?_, ?_, h3⟩
  · intro hex
    simp only [raggedGetTensor, hcol, exbind_ok]
    rw [h1 hex]
    rfl
  · intro out hout
    cases hwr : raggedWalk (offsetsDtypeWidth r.row_partition_dtype) column
        (r.col_path.drop 1) [] with
    | error e =>
      simp only [raggedGetTensor, hcol, exbind_ok, hwr, exbind_err] at hout
      exact absurd hout (by simp)
    | ok w => exact h2 w hwr

/-- Witness for C8: a column presented as a sliced view (offset 1) makes
`GetTensor` fail with the slice error. -/
theorem C8_ragged_slice_rejection_witness :
    raggedGetTensor ⟨0, ["f"], 1, .tfInt64, .INT64, false⟩
        ⟨[("f", .list .int64)], [.listA 1 [0, 1] (.prim 0 [5])], 1⟩ false
      = .error (.valueError raggedSliceErrMsg) := by
  have h := (C8_ragged_slice_rejection ⟨0, ["f"], 1, .tfInt64, .INT64, false⟩
    ⟨[("f", .list .int64)], [.listA 1 [0, 1] (.prim 0 [5])], 1⟩
    (.listA 1 [0, 1] (.prim 0 [5])) false (by simp [columnAt])).1
  apply h
  refine ⟨.listA 1 [0, 1] (.prim 0 [5]), ?_, by simp [AArray.off]⟩
  rw [raggedVisited.eq_def]
  exact List.mem_cons_self _ _

theorem except_map_error_iff {ε α β : Type} (f : α → β) (x : Except ε α) :
    (∃ e, x.map f = .error e) ↔ (∃ e, x = .error e) := by
  cases x <;> simp [Except.map]

theorem enumFromType_fails_iff :
    ∀ (t : ArrowType) (p : List String),
      (∃ e, enumFromType t p = .error e) ↔ pathStepFails t p = true := by
  intro t p
  induction t, p using enumFromType.induct with
  | case1 fields => simp [enumFromType, pathStepFails]
  | case2 fields step rest hlk =>
    rw [enumFromType.eq_def, pathStepFails.eq_def]
    simp only [hlk]
    split <;> simp_all
  | case3 fields step rest t hlk ih =>
    rw [enumFromType.eq_def, pathStepFails.eq_def]
    simp only [hlk]
    split <;> simp_all [except_map_error_iff]
  | case4 t p ih =>
    rw [enumFromType.eq_def, pathStepFails.eq_def]
    simpa [except_map_error_iff] using ih
  | case5 t p ih =>
    rw [enumFromType.eq_def, pathStepFails.eq_def]
    simpa [except_map_error_iff] using ih
  | case6 t p hs1 hs2 hl hll hemp =>
    cases t with
    | struct fields =>
      exfalso
      cases p with
      | nil => exact hs1 fields rfl rfl
      | cons a b => exact hs2 fields a b rfl rfl
    | list u => exact absurd rfl (hl u)
    | largeList u => exact absurd rfl (hll u)
    | int64 => simp [enumFromType, pathStepFails, hemp]
    | float64 => simp [enumFromType, pathStepFails, hemp]
    | string => simp [enumFromType, pathStepFails, hemp]
    | binary => simp [enumFromType, pathStepFails, hemp]
  | case7 t p hs1 hs2 hl hll hemp =>
    cases t with
    | struct fields =>
      exfalso
      cases p with
      | nil => exact hs1 fields rfl rfl
      | cons a b => exact hs2 fields a b rfl rfl
    | list u => exact absurd rfl (hl u)
    | largeList u => exact absurd rfl (hll u)
    | int64 => simp [enumFromType, pathStepFails, hemp]
    | float64 => simp [enumFromType, pathStepFails, hemp]
    | string => simp [enumFromType, pathStepFails, hemp]
    | binary => simp [enumFromType, pathStepFails, hemp]

/-- Counterexample to C7 as stated: when the path is exhausted while the
current type is still struct-like, `_EnumerateTypesAlongPath` terminates
without error, yielding the struct as the final type, instead of failing
with a `PathError`. -/
theorem C7_path_resolver_counterexample :
    enumerateTypesAlongPath [("a", .struct [("b", .int64)])] ["a"]
      = .ok [.struct [("b", .int64)]] ∧
    isStruct (.struct [("b", .int64)]) = true := by
  constructor
  · simp [enumerateTypesAlongPath, schemaField, lookupByName, enumFromType,
      bind, Except.bind, pure, Except.pure]
  · rfl

/-- Claim C7 as amended: for every schema and non-empty path, traversal
fails exactly when a requested field or struct-child name does not exist,
or the path has unconsumed steps after reaching a non-list, non-struct
leaf; exhausting the path at a struct-like type is not a failure. -/
theorem C7_path_resolver_fails_iff
    (schema : Schema) (p : List String) (hne : p ≠ []) :
    (∃ e, enumerateTypesAlongPath schema p = .error e) ↔
      pathResolverFails schema p = true := by
  match p with
  | [] => exact absurd rfl hne
  | s :: rest =>
    simp only [enumerateTypesAlongPath, pathResolverFails, schemaField]
    cases hlk : lookupByName schema s with
    | none => simp [bind, Except.bind]
    | some t =>
      simp only [bind, Except.bind]
      rw [← enumFromType_fails_iff t rest]
      cases henm : enumFromType t rest with
      | error e => simp [henm]
      | ok v => simp [henm, pure, Except.pure]

/-- Witness for the amended C7: left-over steps at a leaf fail; a path
exhausted at a struct succeeds. -/
theorem C7_path_resolver_fails_iff_witness :
    (∃ e, enumerateTypesAlongPath [("a", ArrowType.int64)] ["a", "b"] = .error e) ∧
    ¬ (∃ e, enumerateTypesAlongPath [("a", ArrowType.struct [("b", .int64)])] ["a"]
        = .error e) := by
  constructor
  · exact (C7_path_resolver_fails_iff [("a", ArrowType.int64)] ["a", "b"]
      (by simp)).mpr
      (by simp [pathResolverFails, lookupByName, pathStepFails])
  · intro hex
    have := (C7_path_resolver_fails_iff [("a", ArrowType.struct [("b", .int64)])] ["a"]
      (by simp)).mp hex
    simp [pathResolverFails, lookupByName, pathStepFails] at this

theorem selectHandler_skip (schema : Schema) (rep : TensorRepresentation)
    (k : HandlerKind) (ks : List HandlerKind)
    (hk : canHandle k schema rep = .ok false) :
    selectHandler schema rep (k :: ks) = selectHandler schema rep ks := by
  simp [selectHandler, hk, exbind_ok]

theorem selectHandler_accept (schema : Schema) (rep : TensorRepresentation)
    (k : HandlerKind) (ks : List HandlerKind) (h : Handler)
    (hk : canHandle k schema rep = .ok true)
    (hini : handlerInit k schema rep = .ok h) :
    selectHandler schema rep (k :: ks) = .ok (some h) := by
  simp [selectHandler, hk, hini, exbind_ok, pure, Except.pure]

theorem selectHandler_none (schema : Schema) (rep : TensorRepresentation) :
    ∀ ks : List HandlerKind, (∀ k ∈ ks, canHandle k schema rep = .ok false) →
      selectHandler schema rep ks = .ok none := by
  intro ks
  induction ks with
  | nil => intro _; rfl
  | cons k rest ih =>
    intro hall
    rw [selectHandler_skip schema rep k rest (hall k (by simp))]
    exact ih (fun k' hk' => hall k' (by simp [hk']))

theorem selectHandler_first (schema : Schema) (rep : TensorRepresentation) :
    ∀ (ks1 : List HandlerKind) (k : HandlerKind) (ks2 : List HandlerKind) (h : Handler),
      (∀ k' ∈ ks1, canHandle k' schema rep = .ok false) →
      canHandle k schema rep = .ok true →
      handlerInit k schema rep = .ok h →
      selectHandler schema rep (ks1 ++ k :: ks2) = .ok (some h) := by
  intro ks1
  induction ks1 with
  | nil =>
    intro k ks2 h _ hk hini
    exact selectHandler_accept schema rep k ks2 h hk hini
  | cons k0 rest ih =>
    intro k ks2 h hrej hk hini
    rw [List.cons_append, selectHandler_skip schema rep k0 _ (hrej k0 (by simp))]
    exact ih k ks2 h (fun k' hk' => hrej k' (by simp [hk'])) hk hini

/-- Claim C4: `_BuildTypeHandlers` tries each kind's candidate handler
classes in their declared order and instantiates the first whose
feasibility predicate accepts; when no candidate accepts or the kind is
unset, it fails with an error naming the offending tensor and
representation.  For dense, the declared order is the plain handler before
the default-filling one. -/
theorem C4_registry_first_accepting
    (schema : Schema) (tensor_name : String) (rep : TensorRepresentation)
    (rest : List (String × TensorRepresentation)) :
    (typeHandlerMap rep = none →
      buildTypeHandlers ((tensor_name, rep) :: rest) schema
        = .error (.valueError (unableNoKindMsg tensor_name rep))) ∧
    (∀ (ks1 : List HandlerKind) (k : HandlerKind) (ks2 : List HandlerKind) (h : Handler),
      typeHandlerMap rep = some (ks1 ++ k :: ks2) →
      (∀ k' ∈ ks1, canHandle k' schema rep = .ok false) →
      canHandle k schema rep = .ok true →
      handlerInit k schema rep = .ok h →
      buildTypeHandlers ((tensor_name, rep) :: rest) schema
        = (buildTypeHandlers rest schema).map (fun tail => (tensor_name, h) :: tail)) ∧
    (∀ ks : List HandlerKind, typeHandlerMap rep = some ks →
      (∀ k' ∈ ks, canHandle k' schema rep = .ok false) →
      buildTypeHandlers ((tensor_name, rep) :: rest) schema
        = .error (.valueError (unableNoHandlerMsg tensor_name rep))) ∧
    (∀ r : DenseTensorRep,
      typeHandlerMap (.dense_tensor r) = some [.denseH, .defaultFillingDenseH]) := by
  refine ⟨?_, ?_, ?_, fun r => rfl⟩
  · intro hmap
    simp [buildTypeHandlers, hmap]
  · intro ks1 k ks2 h hmap hrej hk hini
    simp only [buildTypeHandlers, hmap]
    rw [selectHandler_first schema rep ks1 k ks2 h hrej hk hini]
    cases hrest : buildTypeHandlers rest schema with
    | error e => simp [hrest, bind, Except.bind, Except.map]
    | ok tail => simp [hrest, bind, Except.bind, pure, Except.pure, Except.map]
  · intro ks hmap hrej
    simp only [buildTypeHandlers, hmap]
    rw [selectHandler_none schema rep ks hrej]
    rfl

/-- Witness for C4: an unset kind fails naming the tensor; on a feasible
dense representation the first (plain dense) class is instantiated; on an
infeasible schema, with both dense candidates rejecting, the build fails
naming the tensor and representation. -/
theorem C4_registry_first_accepting_witness :
    buildTypeHandlers [("t", .kind_unset)] []
      = .error (.valueError (unableNoKindMsg "t" .kind_unset)) ∧
    buildTypeHandlers [("t", .dense_tensor ⟨"f", [2], none⟩)] [("f", .list .int64)]
      = .ok [("t", .dense ⟨0, .tfInt64, [2], 2, false⟩)] ∧
    buildTypeHandlers [("t", .dense_tensor ⟨"f", [2], none⟩)] [("f", .int64)]
      = .error (.valueError (unableNoHandlerMsg "t" (.dense_tensor ⟨"f", [2], none⟩))) := by
  refine ⟨?_, ?_, ?_⟩
  · exact (C4_registry_first_accepting [] "t" .kind_unset []).1 rfl
  · have h := (C4_registry_first_accepting [("f", .list .int64)] "t"
      (.dense_tensor ⟨"f", [2], none⟩) []).2.1
      [] .denseH [.defaultFillingDenseH] (.dense ⟨0, .tfInt64, [2], 2, false⟩)
      rfl (by simp)
      (by simp [canHandle, denseCanHandle, baseDenseCanHandle,
        getNestDepthAndValueType, enumerateTypesAlongPath, enumFromType,
        schemaField, lookupByName, isListLike, isSupportedArrowValueType,
        isIntegerType, isFloatingType, isBinaryLike, bind, Except.bind, pure,
        Except.pure, Except.map, List.getLast?, List.getLastD, List.countP,
        List.countP.go])
      (by simp [handlerInit, denseHandlerDataInit, getNestDepthAndValueType,
        enumerateTypesAlongPath, enumFromType, schemaField, lookupByName,
        getFieldIndex, getFieldIndex.go, arrowTypeToTfDtype, convertToBinaryNeeded,
        isListLike, bind, Except.bind, pure, Except.pure, Except.map,
        List.getLast?, List.getLastD, List.countP, List.countP.go])
    simpa [buildTypeHandlers, Except.map] using h
  · refine (C4_registry_first_accepting [("f", .int64)] "t"
      (.dense_tensor ⟨"f", [2], none⟩) []).2.2.1
      [.denseH, .defaultFillingDenseH] rfl ?_
    intro k' hk'
    rcases List.mem_cons.mp hk' with rfl | hk'
    · simp [canHandle, denseCanHandle, baseDenseCanHandle,
        getNestDepthAndValueType, enumerateTypesAlongPath, enumFromType,
        schemaField, lookupByName, isListLike, isSupportedArrowValueType,
        isIntegerType, isFloatingType, isBinaryLike, bind, Except.bind, pure,
        Except.pure, Except.map, List.getLast?, List.getLastD, List.countP,
        List.countP.go]
    · rcases List.mem_cons.mp hk' with rfl | hk'
      · simp [canHandle, defaultFillingDenseCanHandle, baseDenseCanHandle,
          getNestDepthAndValueType, enumerateTypesAlongPath, enumFromType,
          schemaField, lookupByName, isListLike, isSupportedArrowValueType,
          isIntegerType, isFloatingType, isBinaryLike, bind, Except.bind, pure,
          Except.pure, Except.map, List.getLast?, List.getLastD, List.countP,
          List.countP.go]
      · exact absurd hk' (by simp)

theorem runHandlers_ok_names (b : RecordBatch Int) (e : Bool) :
    ∀ (hs : List (String × Handler)) (res : List (String × Produced Int)),
      runHandlers b e hs = .ok res → res.map Prod.fst = hs.map Prod.fst := by
  intro hs
  induction hs with
  | nil => intro res hok; cases hok; rfl
  | cons p rest ih =>
    intro res hok
    obtain ⟨tensor_name, h⟩ := p
    simp only [runHandlers] at hok
    split at hok
    · exact absurd hok (by simp)
    · cases hrest : runHandlers b e rest with
      | error er => rw [hrest] at hok; exact absurd hok (by simp [Except.map])
      | ok tail =>
        rw [hrest] at hok
        simp only [Except.map, Except.ok.injEq] at hok
        subst hok
        simp [ih tail hrest]

theorem runHandlers_first_fail (b : RecordBatch Int) (e : Bool) :
    ∀ (pre : List (String × Handler)) (tensor_name : String) (h : Handler)
      (hs : List (String × Handler)) (er : PyErr),
      (∀ p ∈ pre, ∃ v, (p.2 : Handler).getTensor b e = .ok v) →
      h.getTensor b e = .error er →
      runHandlers b e (pre ++ (tensor_name, h) :: hs)
        = .error (.valueError (handlerWrapMsg tensor_name er)) := by
  intro pre
  induction pre with
  | nil =>
    intro tensor_name h hs er _ herr
    simp [runHandlers, herr]
  | cons p rest ih =>
    intro tensor_name h hs er hpre herr
    obtain ⟨n0, h0⟩ := p
    obtain ⟨v0, hv0⟩ := hpre (n0, h0) (by simp)
    simp only [List.cons_append, runHandlers, hv0, List.append_eq]
    rw [ih tensor_name h hs er (fun q hq => hpre q (by simp [hq])) herr]
    rfl

theorem runHandlers_all_ok (b : RecordBatch Int) (e : Bool) :
    ∀ (hs : List (String × Handler)) (outs : List (Produced Int)),
      List.Forall₂ (fun (p : String × Handler) (v : Produced Int) =>
        p.2.getTensor b e = .ok v) hs outs →
      runHandlers b e hs = .ok (List.zipWith (fun p v => (Prod.fst p, v)) hs outs) := by
  intro hs outs hf
  induction hf with
  | nil => rfl
  | cons hpv hrest ih =>
    rename_i p v ps vs
    obtain ⟨n0, h0⟩ := p
    simp only [runHandlers, hpv, ih, Except.map, List.zipWith]

/-- Claim C5: `ToBatchTensors` fails when the batch's schema is not
identical to the configured schema; otherwise it invokes each handler in
turn, wrapping any handler failure with the offending tensor's name and
re-raising, aborting the whole call (a success always binds every
configured tensor name — no partial map). -/
theorem C5_toBatchTensors
    (ad : TensorAdapter) (b : RecordBatch Int) (produce : Option Bool) (tfe : Bool)
    (heager : produce = some true → tfe = true) :
    (schemaEquals b.schema ad.arrow_schema = false →
      toBatchTensors ad b produce tfe = .error (.valueError "Expected same schema.")) ∧
    (∀ res, toBatchTensors ad b produce tfe = .ok res →
      res.map Prod.fst = ad.type_handlers.map Prod.fst) ∧
    (∀ (pre : List (String × Handler)) (tensor_name : String) (h : Handler)
        (hs : List (String × Handler)) (er : PyErr),
      schemaEquals b.schema ad.arrow_schema = true →
      ad.type_handlers = pre ++ (tensor_name, h) :: hs →
      (∀ p ∈ pre, ∃ v, (p.2 : Handler).getTensor b (produce.getD tfe) = .ok v) →
      h.getTensor b (produce.getD tfe) = .error er →
      toBatchTensors ad b produce tfe
        = .error (.valueError (handlerWrapMsg tensor_name er))) ∧
    (∀ outs, schemaEquals b.schema ad.arrow_schema = true →
      List.Forall₂ (fun (p : String × Handler) (v : Produced Int) =>
        p.2.getTensor b (produce.getD tfe) = .ok v) ad.type_handlers outs →
      toBatchTensors ad b produce tfe
        = .ok (List.zipWith (fun p v => (Prod.fst p, v)) ad.type_handlers outs)) := by
  have hguard : (produce.getD false && !tfe) = false := by
    cases produce with
    | none => rfl
    | some pv =>
      cases pv with
      | false => rfl
      | true => simp [heager rfl]
  refine ⟨?_, ?_, ?_, ?_⟩
  · intro hne
    simp [toBatchTensors, hguard, hne]
  · intro res hok
    simp only [toBatchTensors, hguard, Bool.false_eq_true, if_false] at hok
    split at hok
    · exact absurd hok (by simp)
    · exact runHandlers_ok_names b (produce.getD tfe) ad.type_handlers res hok
  · intro pre tensor_name h hs er hse hsplit hpre herr
    simp only [toBatchTensors, hguard, Bool.false_eq_true, if_false, hse,
      Bool.not_true, hsplit]
    rw [runHandlers_first_fail b (produce.getD tfe) pre tensor_name h hs er hpre herr]
  · intro outs hse hf
    simp only [toBatchTensors, hguard, Bool.false_eq_true, if_false, hse, Bool.not_true]
    exact runHandlers_all_ok b (produce.getD tfe) ad.type_handlers outs hf

/-- Witness for C5: a mismatched schema fails; a failing dense handler's
error comes back wrapped with the tensor name; a fully successful run
returns the complete map. -/
theorem C5_toBatchTensors_witness :
    toBatchTensors ⟨[("f", .list .int64)], [("t", .dense ⟨0, .tfInt64, [2], 2, false⟩)],
        [("t", .tensorSpec [none, some 2] .tfInt64)], [("t", .tensorSpec [none, some 2] .tfInt64)]⟩
      ⟨[("g", .int64)], [], 0⟩ none false
      = .error (.valueError "Expected same schema.") ∧
    toBatchTensors ⟨[("f", .list .int64)], [("t", .dense ⟨0, .tfInt64, [2], 2, false⟩)],
        [("t", .tensorSpec [none, some 2] .tfInt64)], [("t", .tensorSpec [none, some 2] .tfInt64)]⟩
      ⟨[("f", .list .int64)], [listOfRows [[1]]], 1⟩ none false
      = .error (.valueError (handlerWrapMsg "t" (.valueError (denseSizeMismatchMsg 2 1)))) ∧
    toBatchTensors ⟨[("f", .list .int64)], [("t", .dense ⟨0, .tfInt64, [2], 2, false⟩)],
        [("t", .tensorSpec [none, some 2] .tfInt64)], [("t", .tensorSpec [none, some 2] .tfInt64)]⟩
      ⟨[("f", .list .int64)], [listOfRows [[1, 2]]], 1⟩ none false
      = .ok [("t", ⟨false, .denseT [1, 2] [1, 2]⟩)] := by
  refine ⟨?_, ?_, ?_⟩
  · exact (C5_toBatchTensors _ _ none false (by simp)).1
      (by simp [schemaEquals, beqFieldList, ArrowType.beq])
  · exact (C5_toBatchTensors _ _ none false (by simp)).2.2.1
      [] "t" (.dense ⟨0, .tfInt64, [2], 2, false⟩) [] (.valueError (denseSizeMismatchMsg 2 1))
      (by simp [schemaEquals, beqFieldList, ArrowType.beq]) rfl (by simp)
      (by simp [Handler.getTensor, denseGetTensor, columnAt, listArrayToTensor,
        listOfRows, cumOffsets, cumOffsets.go, AArray.flatten, AArray.len,
        AArray.addOffset, AArray.asNp, bind, Except.bind])
  · have h := (C5_toBatchTensors
      ⟨[("f", .list .int64)], [("t", .dense ⟨0, .tfInt64, [2], 2, false⟩)],
        [("t", .tensorSpec [none, some 2] .tfInt64)], [("t", .tensorSpec [none, some 2] .tfInt64)]⟩
      ⟨[("f", .list .int64)], [listOfRows [[1, 2]]], 1⟩ none false (by simp)).2.2.2
      [⟨false, .denseT [1, 2] [1, 2]⟩]
      (by simp [schemaEquals, beqFieldList, ArrowType.beq])
      (by
        refine .cons ?_ .nil
        simp [Handler.getTensor, denseGetTensor, columnAt, listArrayToTensor,
          listOfRows, cumOffsets, cumOffsets.go, AArray.flatten, AArray.len,
          AArray.addOffset, AArray.asNp, bind, Except.bind, pure, Except.pure])
    simpa using h

theorem handler_getTensor_eager (h : Handler) (b : RecordBatch Int) (e : Bool)
    (v : Produced Int) : h.getTensor b e = .ok v → v.eager = e := by
  cases h with
  | dense d =>
    simp only [Handler.getTensor, denseGetTensor, bind, Except.bind]
    intro hok
    split at hok
    · exact absurd hok (by simp)
    · simp only [listArrayToTensor] at hok
      split at hok
      · exact absurd hok (by simp)
      · simp only [Except.ok.injEq] at hok
        rw [← hok]
  | defaultFillingDense d fs fv =>
    simp only [Handler.getTensor, defaultFillingDenseGetTensor, bind, Except.bind]
    intro hok
    split at hok
    · exact absurd hok (by simp)
    · simp only [listArrayToTensor] at hok
      split at hok
      · exact absurd hok (by simp)
      · simp only [Except.ok.injEq] at hok
        rw [← hok]
  | varlenSparse vv =>
    simp only [Handler.getTensor, varLenGetTensor, bind, Except.bind]
    intro hok
    split at hok
    · exact absurd hok (by simp)
    · simp only [pure, Except.pure, Except.ok.injEq] at hok
      rw [← hok]
  | sparse s =>
    simp only [Handler.getTensor, sparseGetTensor, bind, Except.bind]
    intro hok
    split at hok
    · exact absurd hok (by simp)
    · split at hok
      · exact absurd hok (by simp)
      · split at hok
        · simp only [pure, Except.pure, Except.ok.injEq] at hok
          rw [← hok]
        · exact absurd hok (by simp)
  | ragged r =>
    simp only [Handler.getTensor, raggedGetTensor, bind, Except.bind]
    intro hok
    split at hok
    · exact absurd hok (by simp)
    · split at hok
      · exact absurd hok (by simp)
      · simp only [pure, Except.pure, Except.ok.injEq] at hok
        rw [← hok]

theorem runHandlers_eager (b : RecordBatch Int) (e : Bool) :
    ∀ (hs : List (String × Handler)) (res : List (String × Produced Int)),
      runHandlers b e hs = .ok res → ∀ p ∈ res, (p.2 : Produced Int).eager = e := by
  intro hs
  induction hs with
  | nil => intro res hok p hp; cases hok; simp at hp
  | cons q rest ih =>
    intro res hok p hp
    obtain ⟨tensor_name, h⟩ := q
    simp only [runHandlers] at hok
    split at hok
    · exact absurd hok (by simp)
    · rename_i v hv
      cases hrest : runHandlers b e rest with
      | error er => rw [hrest] at hok; exact absurd hok (by simp [Except.map])
      | ok tail =>
        rw [hrest] at hok
        simp only [Except.map, Except.ok.injEq] at hok
        subst hok
        rcases List.mem_cons.mp hp with rfl | hp
        · exact handler_getTensor_eager h b e v hv
        · exact ih tail hrest p hp

/-- Claim C9: `ToBatchTensors` raises `RuntimeError` when eager tensors are
requested but TF is not executing eagerly — before the schema check and
before any handler runs (the error holds for every adapter and batch,
including schema-mismatched ones); with `produce_eager_tensors = None`,
eager output is selected exactly when TF is executing eagerly. -/
theorem C9_eager_mode_check
    (ad : TensorAdapter) (b : RecordBatch Int) (tfe : Bool) :
    (tfe = false →
      toBatchTensors ad b (some true) tfe = .error (.runtimeError eagerNotEnabledMsg)) ∧
    (∀ res, toBatchTensors ad b none tfe = .ok res →
      ∀ p ∈ res, (p.2 : Produced Int).eager = tfe) := by
  constructor
  · intro htfe
    subst htfe
    rfl
  · intro res hok p hp
    simp only [toBatchTensors, Option.getD] at hok
    split at hok
    · exact absurd hok (by simp)
    · split at hok
      · exact absurd hok (by simp)
      · exact runHandlers_eager b tfe ad.type_handlers res hok p hp

/-- Witness for C9: the RuntimeError fires even on a schema-mismatched
batch (so it precedes the schema check), and a `None` request under eager
TF yields eager-tagged output. -/
theorem C9_eager_mode_check_witness :
    toBatchTensors ⟨[], [], [], []⟩ ⟨[("g", .int64)], [], 0⟩ (some true) false
      = .error (.runtimeError eagerNotEnabledMsg) ∧
    (toBatchTensors ⟨[], [], [], []⟩ ⟨[], [], 0⟩ none true = .ok [] ∧
      ∀ p ∈ ([] : List (String × Produced Int)), (p.2 : Produced Int).eager = true) := by
  refine ⟨(C9_eager_mode_check ⟨[], [], [], []⟩ ⟨[("g", .int64)], [], 0⟩ false).1 rfl, rfl, ?_⟩
  intro p hp
  exact ((C9_eager_mode_check ⟨[], [], [], []⟩ ⟨[], [], 0⟩ true).2 [] rfl) p hp

theorem checkOriginalSpecs_ok_of_all (original : List (String × TypeSpec)) :
    ∀ derived : List (String × TypeSpec),
      (∀ p ∈ derived, lookupByName original p.1 = some p.2) →
      checkOriginalSpecs original derived = .ok () := by
  intro derived
  induction derived with
  | nil => intro _; rfl
  | cons p rest ih =>
    intro hall
    obtain ⟨tensor_name, ts⟩ := p
    have hp := hall (tensor_name, ts) (by simp)
    simp only [checkOriginalSpecs, hp]
    rw [if_neg (by simp)]
    exact ih (fun q hq => hall q (by simp [hq]))

theorem checkOriginalSpecs_err_of_exists (original : List (String × TypeSpec)) :
    ∀ derived : List (String × TypeSpec),
      (∃ p ∈ derived, lookupByName original p.1 ≠ some p.2) →
      ∃ tensor_name, checkOriginalSpecs original derived
        = .error (.valueError (typeSpecMismatchMsg tensor_name)) := by
  intro derived
  induction derived with
  | nil => intro hex; simp at hex
  | cons p rest ih =>
    intro hex
    obtain ⟨tensor_name, ts⟩ := p
    by_cases hhead : lookupByName original tensor_name = some ts
    · have hex' : ∃ p ∈ rest, lookupByName original p.1 ≠ some p.2 := by
        obtain ⟨q, hq, hqe⟩ := hex
        rcases List.mem_cons.mp hq with rfl | hq
        · exact absurd hhead hqe
        · exact ⟨q, hq, hqe⟩
      obtain ⟨n, hn⟩ := ih hex'
      refine ⟨n, ?_⟩
      simp only [checkOriginalSpecs, hhead]
      rw [if_neg (by simp)]
      exact hn
    · refine ⟨tensor_name, ?_⟩
      cases hlk : lookupByName original tensor_name with
      | none => simp [checkOriginalSpecs, hlk]
      | some o =>
        have hne : o ≠ ts := fun he => hhead (by rw [hlk, he])
        simp [checkOriginalSpecs, hlk, hne]

theorem lookup_self_of_nodup {β : Type} :
    ∀ l : List (String × β), (l.map Prod.fst).Nodup →
      ∀ p ∈ l, lookupByName l p.1 = some p.2 := by
  intro l
  induction l with
  | nil => intro _ p hp; simp at hp
  | cons q rest ih =>
    intro hnd p hp
    obtain ⟨n, v⟩ := q
    simp only [List.map_cons, List.nodup_cons] at hnd
    rcases List.mem_cons.mp hp with rfl | hp
    · simp [lookupByName]
    · have hne : n ≠ p.1 := by
        intro he
        exact hnd.1 (he ▸ List.mem_map.mpr ⟨p, hp, rfl⟩)
      simp only [lookupByName, if_neg (fun he => hne he)]
      exact ih hnd.2 p hp

/-- Claim C6: with an externally-declared type-contract map, adapter
construction fails unless the external contract exactly equals the derived
one for every derived tensor name (per-name: any missing or unequal entry
is a fatal ValueError); with no external map, the original contract map is
the derived one. -/
theorem C6_original_type_specs_equality
    (config : TensorAdapterConfig) (hs : List (String × Handler))
    (hbuild : buildTypeHandlers config.tensor_representations config.arrow_schema
      = .ok hs)
    (hnodup : (hs.map Prod.fst).Nodup) :
    (∀ m, config.original_type_specs = some m →
      ((∀ p ∈ hs.map (fun q => (q.1, q.2.typeSpec)), lookupByName m p.1 = some p.2) →
        adapterInit config
          = .ok ⟨config.arrow_schema, hs, hs.map (fun q => (q.1, q.2.typeSpec)), m⟩) ∧
      ((∃ p ∈ hs.map (fun q => (q.1, q.2.typeSpec)), lookupByName m p.1 ≠ some p.2) →
        ∃ tensor_name, adapterInit config
          = .error (.valueError (typeSpecMismatchMsg tensor_name)))) ∧
    (config.original_type_specs = none →
      adapterInit config = .ok ⟨config.arrow_schema, hs,
        hs.map (fun q => (q.1, q.2.typeSpec)), hs.map (fun q => (q.1, q.2.typeSpec))⟩) := by
  constructor
  · intro m hm
    constructor
    · intro hall
      simp only [adapterInit, hbuild, exbind_ok, hm, Option.getD]
      rw [checkOriginalSpecs_ok_of_all m _ hall]
      rfl
    · intro hex
      obtain ⟨n, hn⟩ := checkOriginalSpecs_err_of_exists m _ hex
      refine ⟨n, ?_⟩
      simp only [adapterInit, hbuild, exbind_ok, hm, Option.getD]
      rw [hn]
      rfl
  · intro hm
    simp only [adapterInit, hbuild, exbind_ok, hm, Option.getD]
    rw [checkOriginalSpecs_ok_of_all _ _ ?_]
    · rfl
    · intro p hp
      refine lookup_self_of_nodup _ ?_ p hp
      simpa using hnodup

/-- Claim C10: a strict-superset external map (every derived name with an
equal spec, plus extras) makes construction succeed, the extras retained in
the adapter's original type specs, while conversion output only ever binds
the derived tensor names; a map lacking an entry for a derived name fails
construction. -/
theorem C10_original_type_specs_superset
    (config : TensorAdapterConfig) (hs : List (String × Handler))
    (m : List (String × TypeSpec))
    (hbuild : buildTypeHandlers config.tensor_representations config.arrow_schema
      = .ok hs)
    (hm : config.original_type_specs = some m) :
    ((∀ p ∈ hs.map (fun q => (q.1, q.2.typeSpec)), lookupByName m p.1 = some p.2) →
      adapterInit config
        = .ok ⟨config.arrow_schema, hs, hs.map (fun q => (q.1, q.2.typeSpec)), m⟩ ∧
      (∀ (b : RecordBatch Int) (produce : Option Bool) (tfe : Bool) res,
        toBatchTensors ⟨config.arrow_schema, hs, hs.map (fun q => (q.1, q.2.typeSpec)), m⟩
            b produce tfe = .ok res →
        res.map Prod.fst = hs.map Prod.fst)) ∧
    ((∃ p ∈ hs.map (fun q => (q.1, q.2.typeSpec)), lookupByName m p.1 = none) →
      ∃ tensor_name, adapterInit config
        = .error (.valueError (typeSpecMismatchMsg tensor_name))) := by
  constructor
  · intro hall
    constructor
    · simp only [adapterInit, hbuild, exbind_ok, hm, Option.getD]
      rw [checkOriginalSpecs_ok_of_all m _ hall]
      rfl
    · intro b produce tfe res hok
      simp only [toBatchTensors] at hok
      split at hok
      · exact absurd hok (by simp)
      · split at hok
        · exact absurd hok (by simp)
        · exact runHandlers_ok_names b _ hs res hok
  · intro hex
    have hex' : ∃ p ∈ hs.map (fun q => (q.1, q.2.typeSpec)),
        lookupByName m p.1 ≠ some p.2 := by
      obtain ⟨p, hp, hnone⟩ := hex
      exact ⟨p, hp, by simp [hnone]⟩
    obtain ⟨n, hn⟩ := checkOriginalSpecs_err_of_exists m _ hex'
    refine ⟨n, ?_⟩
    simp only [adapterInit, hbuild, exbind_ok, hm, Option.getD]
    rw [hn]
    rfl

/-- Witness for C6: an unequal external spec (wrong dim) fails
construction; omitting the external map makes the original map equal the
derived map. -/
theorem C6_original_type_specs_equality_witness :
    (∃ tensor_name,
      adapterInit ⟨[("f", .list .int64)], [("t", .dense_tensor ⟨"f", [2], none⟩)],
          some [("t", .tensorSpec [none, some 3] .tfInt64)]⟩
        = .error (.valueError (typeSpecMismatchMsg tensor_name))) ∧
    adapterInit ⟨[("f", .list .int64)], [("t", .dense_tensor ⟨"f", [2], none⟩)], none⟩
      = .ok ⟨[("f", .list .int64)], [("t", .dense ⟨0, .tfInt64, [2], 2, false⟩)],
          [("t", .tensorSpec [none, some 2] .tfInt64)],
          [("t", .tensorSpec [none, some 2] .tfInt64)]⟩ := by
  have hbuild : buildTypeHandlers [("t", .dense_tensor ⟨"f", [2], none⟩)]
      [("f", .list .int64)] = .ok [("t", .dense ⟨0, .tfInt64, [2], 2, false⟩)] := by
    simp [buildTypeHandlers, typeHandlerMap, selectHandler, canHandle, denseCanHandle,
      baseDenseCanHandle, handlerInit, denseHandlerDataInit, getNestDepthAndValueType,
      enumerateTypesAlongPath, enumFromType, schemaField, lookupByName, getFieldIndex,
      getFieldIndex.go, arrowTypeToTfDtype, convertToBinaryNeeded, isListLike,
      isSupportedArrowValueType, isIntegerType, isFloatingType, isBinaryLike,
      bind, Except.bind, pure, Except.pure, Except.map, List.getLast?, List.getLastD,
      List.countP, List.countP.go]
  constructor
  · exact ((C6_original_type_specs_equality
      ⟨[("f", .list .int64)], [("t", .dense_tensor ⟨"f", [2], none⟩)],
        some [("t", .tensorSpec [none, some 3] .tfInt64)]⟩
      [("t", .dense ⟨0, .tfInt64, [2], 2, false⟩)] hbuild (by simp)).1
      [("t", .tensorSpec [none, some 3] .tfInt64)] rfl).2
      ⟨("t", .tensorSpec [none, some 2] .tfInt64),
        by simp [Handler.typeSpec], by simp [lookupByName]⟩
  · have h := (C6_original_type_specs_equality
      ⟨[("f", .list .int64)], [("t", .dense_tensor ⟨"f", [2], none⟩)], none⟩
      [("t", .dense ⟨0, .tfInt64, [2], 2, false⟩)] hbuild (by simp)).2 rfl
    simpa [Handler.typeSpec] using h

/-- Witness for C10: a superset map (one extra name) constructs an adapter
retaining the extra in its original specs; a map missing the derived name
fails construction. -/
theorem C10_original_type_specs_superset_witness :
    adapterInit ⟨[("f", .list .int64)], [("t", .dense_tensor ⟨"f", [2], none⟩)],
        some [("t", .tensorSpec [none, some 2] .tfInt64),
              ("extra", .tensorSpec [none, none] .tfString)]⟩
      = .ok ⟨[("f", .list .int64)], [("t", .dense ⟨0, .tfInt64, [2], 2, false⟩)],
          [("t", .tensorSpec [none, some 2] .tfInt64)],
          [("t", .tensorSpec [none, some 2] .tfInt64),
           ("extra", .tensorSpec [none, none] .tfString)]⟩ ∧
    (∃ tensor_name,
      adapterInit ⟨[("f", .list .int64)], [("t", .dense_tensor ⟨"f", [2], none⟩)],
          some [("other", .tensorSpec [none, some 2] .tfInt64)]⟩
        = .error (.valueError (typeSpecMismatchMsg tensor_name))) := by
  have hbuild : buildTypeHandlers [("t", .dense_tensor ⟨"f", [2], none⟩)]
      [("f", .list .int64)] = .ok [("t", .dense ⟨0, .tfInt64, [2], 2, false⟩)] := by
    simp [buildTypeHandlers, typeHandlerMap, selectHandler, canHandle, denseCanHandle,
      baseDenseCanHandle, handlerInit, denseHandlerDataInit, getNestDepthAndValueType,
      enumerateTypesAlongPath, enumFromType, schemaField, lookupByName, getFieldIndex,
      getFieldIndex.go, arrowTypeToTfDtype, convertToBinaryNeeded, isListLike,
      isSupportedArrowValueType, isIntegerType, isFloatingType, isBinaryLike,
      bind, Except.bind, pure, Except.pure, Except.map, List.getLast?, List.getLastD,
      List.countP, List.countP.go]
  constructor
  · have h := ((C10_original_type_specs_superset
      ⟨[("f", .list .int64)], [("t", .dense_tensor ⟨"f", [2], none⟩)],
        some [("t", .tensorSpec [none, some 2] .tfInt64),
              ("extra", .tensorSpec [none, none] .tfString)]⟩
      [("t", .dense ⟨0, .tfInt64, [2], 2, false⟩)]
      [("t", .tensorSpec [none, some 2] .tfInt64),
       ("extra", .tensorSpec [none, none] .tfString)] hbuild rfl).1
      (by simp [Handler.typeSpec, lookupByName])).1
    simpa [Handler.typeSpec] using h
  · exact (C10_original_type_specs_superset
      ⟨[("f", .list .int64)], [("t", .dense_tensor ⟨"f", [2], none⟩)],
        some [("other", .tensorSpec [none, some 2] .tfInt64)]⟩
      [("t", .dense ⟨0, .tfInt64, [2], 2, false⟩)]
      [("other", .tensorSpec [none, some 2] .tfInt64)] hbuild rfl).2
      ⟨("t", .tensorSpec [none, some 2] .tfInt64),
        by simp [Handler.typeSpec], by simp [lookupByName]⟩
